import Mathlib

/-!
# rpi-provision: a shallow embedding of the remote step-execution engine

The development follows the three Go source files of the repository:

* `ssh/ssh.go`    : the command channel (`runCommand`), the privilege wrapper
  (`basicSudoStdin`) and the key reconciler (`UploadsshKeys`, `removeDuplicateStr`);
* `cmd/layer1.go` : the bootstrap layer (`layer1`, `setupDeployer` and its steps);
* `cmd/layer2.go` : the software layer (`InstallFish`, `InstallDocker`, ...).

Go strings are Lean `String`s.  A Go `error` is a `GoError` (or `none` for `nil`).
The remote host is a `World`: a deterministic function from the commands issued so
far and the next command to the outcome of the channel.  Every function that talks
to the host is a `Remote` computation: it threads the trace of issued commands and
may end in a Go panic.
-/

/-! ## The Go standard library, as far as the sources use it -/

namespace Go

/-- Go error values: a plain error, or an error built by `fmt.Errorf` with the
`%w` verb, which keeps the wrapped error. -/
inductive GoError where
  | mk (msg : String)
  | wrap (msg : String) (inner : GoError)
deriving DecidableEq, Repr

/-- The method `Error()` of a Go error: its message. -/
def GoError.Error : GoError → String
  | .mk msg => msg
  | .wrap msg _ => msg

/-- The method `Unwrap()`: the wrapped error, if any. -/
def GoError.Unwrap : GoError → Option GoError
  | .mk _ => none
  | .wrap _ inner => some inner

/-- The call `fmt.Errorf(pre + "%w", err)`: the message is the text before the verb
followed by the message of `err`, and `err` stays reachable through `Unwrap`. -/
def errorfW (pre : String) (err : GoError) : GoError :=
  .wrap (pre ++ err.Error) err

/-- The comparison `a < b` of Go strings, on character lists: lexicographic. -/
def lessChars : List Char → List Char → Bool
  | [], [] => false
  | [], _ :: _ => true
  | _ :: _, [] => false
  | a :: as, b :: bs =>
    if a.toNat < b.toNat then true
    else if b.toNat < a.toNat then false
    else lessChars as bs

/-- The comparison `a < b` of Go strings. -/
def stringLess (a b : String) : Bool := lessChars a.data b.data

/-- The order `a ≤ b` that `sort.Strings` sorts by: `b` is not less than `a`. -/
def stringLE (a b : String) : Prop := stringLess b a = false

instance : DecidableRel stringLE := fun a b =>
  inferInstanceAs (Decidable (stringLess b a = false))

/-- The library function `sort.Strings`: sorts in increasing order.  The order is
total and antisymmetric, so the sorted list is unique and any sorting algorithm
gives this result (see `sortStrings_unique`). -/
def sortStrings (xs : List String) : List String :=
  List.insertionSort stringLE xs

/-- The library function `strings.Trim(s, cutset)`: drops the leading and the
trailing characters that occur in `cutset`. -/
def stringsTrim (s cutset : String) : String :=
  ⟨((s.data.dropWhile (fun c => decide (c ∈ cutset.data))).rdropWhile
      (fun c => decide (c ∈ cutset.data)))⟩

/-- The library function `strings.Split(s, sep)` for a separator of one character
(the sources only split on a newline and on a colon). -/
def stringsSplit (s : String) (sep : Char) : List String :=
  (s.data.splitOn sep).map String.mk

/-- The library function `strings.Join(elems, sep)`. -/
def stringsJoin (elems : List String) (sep : String) : String :=
  ⟨sep.data.intercalate (elems.map String.data)⟩

/-- The library function `strings.Contains(s, substr)`, which is also
`strings.Index(s, substr) != -1`. -/
def stringsContains (s substr : String) : Bool :=
  decide (substr.data <:+: s.data)

end Go

/-! ## The command channel and the host behind it -/

namespace Model

open Go

/-- What the channel does with one command, in the order `runCommand` meets it:
`conn.NewSession()` fails, `sess.StdoutPipe()` fails, `sess.StderrPipe()` fails, or
`sess.Run(cmd)` ends with the captured output and its error (`none` for exit 0). -/
inductive Chan where
  | sessionErr (e : GoError)
  | stdoutErr (e : GoError)
  | stderrErr (e : GoError)
  | ran (stdout stderr : String) (err : Option GoError)
deriving DecidableEq, Repr

/-- The commands run on the host so far, oldest first. -/
abbrev Trace := List String

/-- The remote host behind a connection: given the commands run so far and the
next command, the outcome of the channel. -/
abbrev World := Trace → String → Chan

/-- How a Go call ends: it returns a value or it panics. -/
inductive Out (α : Type) where
  | ret (a : α)
  | panic (e : GoError)
deriving DecidableEq, Repr

/-- A computation over one connection: from the host and the trace so far to the
way it ends and the trace extended by the commands it ran. -/
def Remote (α : Type) : Type := World → Trace → Out α × Trace

/-- Runs a computation on a host from a trace. -/
def Remote.run {α : Type} (m : Remote α) (w : World) (tr : Trace) : Out α × Trace :=
  m w tr

instance : Monad Remote where
  pure a := fun _ tr => (.ret a, tr)
  bind m f := fun w tr =>
    match m w tr with
    | (.ret a, tr1) => f a w tr1
    | (.panic e, tr1) => (.panic e, tr1)

/-- The channel runs the command after the trace and the command exits with 0. -/
def Succeeds (w : World) (tr : Trace) (cmd : String) : Prop :=
  ∃ stdout stderr, w tr cmd = .ran stdout stderr none

/-- The channel runs the command after the trace and `sess.Run` returns `err`. -/
def FailsWith (w : World) (tr : Trace) (cmd : String) (err : GoError) : Prop :=
  ∃ stdout stderr, w tr cmd = .ran stdout stderr (some err)

end Model

/-! ## ssh/ssh.go -/

namespace ssh

open Go Model

/-- The function `basicSudoStdin`. -/
def basicSudoStdin (cmd password : String) : String :=
  "echo " ++ password ++ " | sudo -S bash -c '" ++ cmd ++ "'"

/-- The function `runCommand`: panics when the session or one of its pipes cannot
be opened, otherwise runs the command and returns `(stdout, stderr, err)`. -/
def runCommand (cmd : String) : Remote (String × String × Option GoError) :=
  fun w tr =>
    match w tr cmd with
    | .sessionErr e => (.panic e, tr)
    | .stdoutErr e => (.panic e, tr)
    | .stderrErr e => (.panic e, tr)
    | .ran stdout stderr err => (.ret (stdout, stderr, err), tr ++ [cmd])

/-- The method `SSHConnection.Run`. -/
def Run (cmd : String) : Remote (String × String × Option GoError) :=
  runCommand cmd

/-- The method `SSHConnection.RunSudo`. -/
def RunSudo (cmd : String) : Remote (String × String × Option GoError) :=
  Run (basicSudoStdin cmd "")

/-- The method `SSHConnection.RunSudoPassword`. -/
def RunSudoPassword (cmd password : String) : Remote (String × String × Option GoError) :=
  Run (basicSudoStdin cmd password)

/-- The struct `UploadsshKeysArgs` of package `ssh`. -/
structure UploadsshKeysArgs where
  User : String
  Password : String
  Group : String
  KeysUri : String
deriving DecidableEq, Repr

/-- The function `removeDuplicateStr`: `allKeys` is the set of keys of the Go map,
`list` the slice that is returned. -/
def removeDuplicateStr (strSlice : List String) : List String :=
  (strSlice.foldl
    (fun (st : List String × List String) item =>
      if item ∈ st.1 then st else (item :: st.1, st.2 ++ [item]))
    (([] : List String), ([] : List String))).2

/-- The comparison loop of `UploadsshKeys` (run when the two lengths agree):
`equal` starts true and is cleared at every index where the slices differ. -/
def keysEqualLoop (authorizedKeys finalKeys : List String) : Bool :=
  (List.range authorizedKeys.length).foldl
    (fun equal i => if authorizedKeys.getD i "" ≠ finalKeys.getD i "" then false else equal)
    true

/-- The slice `authorizedKeys` of `UploadsshKeys`, from the result of the `cat`. -/
def currentKeys (fileContent : String) (err : Option GoError) : List String :=
  match err with
  | some _ => []
  | none => stringsSplit (stringsTrim fileContent "\n") '\n'

/-- The slice `finalKeys` of `UploadsshKeys`, from the strings of the keys of the
provider: `removeDuplicateStr`, then `sort.Strings`. -/
def finalKeysOf (newKeys : List String) : List String :=
  sortStrings (removeDuplicateStr newKeys)

/-- The string `newFileContent` of `UploadsshKeys`. -/
def newFileContentOf (finalKeys : List String) : String :=
  stringsTrim (stringsJoin finalKeys "\n") "\n"

/-- The string `mkdirCmd` of `UploadsshKeys`. -/
def mkdirCmd (args : UploadsshKeysArgs) : String :=
  "mkdir -p /home/" ++ args.User ++ "/.ssh"

/-- The string `catCmd` of `UploadsshKeys`. -/
def catCmd (args : UploadsshKeysArgs) : String :=
  "cat /home/" ++ args.User ++ "/.ssh/authorized_keys"

/-- The string `updateKeysCmd` of `UploadsshKeys`. -/
def updateKeysCmd (newFileContent : String) (args : UploadsshKeysArgs) : String :=
  "echo \"" ++ newFileContent ++ "\" > /home/" ++ args.User ++ "/.ssh/authorized_keys"

/-- The string `sshFolder` of `UploadsshKeys`. -/
def sshFolder (args : UploadsshKeysArgs) : String :=
  "/home/" ++ args.User ++ "/.ssh"

/-- The string `authorizedKeysPath` of `UploadsshKeys`. -/
def authorizedKeysPath (args : UploadsshKeysArgs) : String :=
  sshFolder args ++ "/authorized_keys"

/-- The string `chmodsshCmd` of `UploadsshKeys`. -/
def chmodsshCmd (args : UploadsshKeysArgs) : String :=
  "chmod 700 " ++ sshFolder args

/-- The string `chmodAkpath` of `UploadsshKeys`. -/
def chmodAkpath (args : UploadsshKeysArgs) : String :=
  "chmod 600 " ++ authorizedKeysPath args

/-- The string `ownership` of `UploadsshKeys`. -/
def ownership (args : UploadsshKeysArgs) : String :=
  args.User ++ ":" ++ args.Group

/-- The string `chownsshCmd` of `UploadsshKeys`. -/
def chownsshCmd (args : UploadsshKeysArgs) : String :=
  "chown " ++ ownership args ++ " " ++ sshFolder args

/-- The string `chownAkpCmd` of `UploadsshKeys`. -/
def chownAkpCmd (args : UploadsshKeysArgs) : String :=
  "chown " ++ ownership args ++ " " ++ authorizedKeysPath args

/-- The function `UploadsshKeys` from the overwrite of the file on: the commands
that it runs once it has found the keys changed. -/
def UploadsshKeysWrite (newFileContent : String) (args : UploadsshKeysArgs) :
    Remote (Bool × Option GoError) := do
  let (_, _, err) ← RunSudoPassword (updateKeysCmd newFileContent args) args.Password
  match err with
  | some err => pure (false, some (errorfW "error updating authorized_keys: " err))
  | none =>
  let (_, _, err) ← RunSudoPassword (chmodsshCmd args) args.Password
  match err with
  | some err => pure (false, some (errorfW "error setting permissions to ssh folder: " err))
  | none =>
  let (_, _, err) ← RunSudoPassword (chmodAkpath args) args.Password
  match err with
  | some err => pure (false, some (errorfW "error setting permissions to authorized_keys: " err))
  | none =>
  let (_, _, err) ← RunSudoPassword (chownsshCmd args) args.Password
  match err with
  | some err => pure (false, some (errorfW "error setting ownership of ssh folder: " err))
  | none =>
  let (_, _, err) ← RunSudoPassword (chownAkpCmd args) args.Password
  match err with
  | some err => pure (false, some (errorfW "error setting ownership of authorized_keys: " err))
  | none => pure (true, none)

/-- The function `UploadsshKeys`.  The key provider `authorizedkeys.Get` is not
part of the sources: it is the parameter `getKeys`, which returns the strings of
the keys (`key.String()` of every entry, in order) or an error. -/
def UploadsshKeys (getKeys : String → Except GoError (List String))
    (args : UploadsshKeysArgs) : Remote (Bool × Option GoError) := do
  let (_, _, err) ← Run (mkdirCmd args)
  match err with
  | some err => pure (false, some (errorfW "error creating user's ssh directory: " err))
  | none =>
  let (fileContent, _, err) ← Run (catCmd args)
  let authorizedKeys := currentKeys fileContent err
  match getKeys args.KeysUri with
  | .error err => pure (false, some (errorfW "error getting authorized keys: " err))
  | .ok newKeys =>
  let finalKeys := finalKeysOf newKeys
  let newFileContent := newFileContentOf finalKeys
  if authorizedKeys.length = finalKeys.length ∧ keysEqualLoop authorizedKeys finalKeys = true then
    pure (false, none)
  else
    UploadsshKeysWrite newFileContent args

end ssh

/-! ## cmd/layer1.go -/

namespace cmd

open Go Model

/-- Modelled from the spec: package `cmd` calls its own `runCommand`, whose source
file is not among the sources; the command channel of the spec is the one of
`ssh/ssh.go`, so it is `ssh.runCommand`. -/
def runCommand (cmd : String) : Remote (String × String × Option GoError) :=
  ssh.runCommand cmd

/-- Modelled from the spec: package `cmd` calls its own `basicSudoStdin`, whose
source file is not among the sources; the privilege wrapper of the spec is the one
of `ssh/ssh.go`, so it is `ssh.basicSudoStdin`. -/
def basicSudoStdin (cmd password : String) : String :=
  ssh.basicSudoStdin cmd password

/-- The struct `Layer1Args`; `staticIP` is a `net.IP`, a slice of bytes. -/
structure Layer1Args where
  loginUser : String
  loginPassword : String
  deployerUser : String
  deployerPassword : String
  rootPassword : String
  host : String
  hostname : String
  port : Int
  s3Path : String
  staticIP : List Nat
deriving DecidableEq, Repr

/-- The struct `Layer1Settings`. -/
structure Layer1Settings where
  loginUser : String
  loginPassword : String
  deployerGroup : String
  deployerUser : String
  deployerPassword : String
  hostname : String
  s3Bucket : String
  s3File : String
  s3Region : String
  rootPassword : String
deriving DecidableEq, Repr

/-- The struct `UploadsshKeysArgs` of package `cmd`, as `setupDeployer` fills it. -/
structure UploadsshKeysArgs where
  user : String
  password : String
  group : String
  s3Bucket : String
  s3File : String
  s3Region : String
deriving DecidableEq, Repr

/-- The struct `interfaceArgs`, as `layer1` fills it. -/
structure interfaceArgs where
  ip : List Nat
  password : String
deriving DecidableEq, Repr

/-- The functions that `cmd/layer1.go` calls and that are not part of the sources:
the parser of the S3 path, `ssh.Dial` (from the address, the user and the password
to a connection or an error), the step `uploadsshKeys` of package `cmd`, and
`setupNetworking`, whose result `layer1` drops. -/
structure Collaborators where
  splitAwsPath : String → Except GoError (String × String × String)
  dial : String → String → String → Except GoError World
  uploadsshKeys : UploadsshKeysArgs → Remote (Option GoError)
  setupNetworking : interfaceArgs → Remote Unit

/-- The function `sudoStdinLogin`. -/
def sudoStdinLogin (cmd : String) (settings : Layer1Settings) : String :=
  basicSudoStdin cmd settings.loginPassword

/-- The function `sudoStdinDeployer`. -/
def sudoStdinDeployer (cmd : String) (settings : Layer1Settings) : String :=
  basicSudoStdin cmd settings.deployerPassword

/-- The string `extraSudoer` of `createDeployerGroup`. -/
def extraSudoer (settings : Layer1Settings) : String :=
  settings.deployerGroup ++ " ALL=(ALL) NOPASSWD: ALL"

/-- The string `sudoersCmd` of `createDeployerGroup`. -/
def sudoersCmd (settings : Layer1Settings) : String :=
  "echo \"\n" ++ extraSudoer settings ++ "\n\" >> /etc/sudoers"

/-- The function `createDeployerGroup` from the line "Checking sudo access" on: the
code that both branches of the group check run into. -/
def createDeployerGroupSudoers (settings : Layer1Settings) : Remote (Option GoError) := do
  let (_, _, err) ← runCommand (sudoStdinLogin "whoami" settings)
  match err with
  | some _ => pure none
  | none =>
  let (_, _, err) ← runCommand (sudoStdinLogin "cp /etc/sudoers sudoers" settings)
  match err with
  | some err => pure (some err)
  | none =>
  let (initialSudoers, _, err) ← runCommand (sudoStdinLogin "cat /etc/sudoers" settings)
  match err with
  | some err => pure (some err)
  | none =>
  let initialSudoers := stringsTrim initialSudoers "\n\r"
  if stringsContains initialSudoers (extraSudoer settings) = true then
    pure none
  else
  let (_, _, err) ← runCommand (sudoStdinLogin (sudoersCmd settings) settings)
  match err with
  | some err => pure (some err)
  | none => pure none

/-- The first string `command` of `createDeployerGroup`: the probe of the group. -/
def groupProbeCmd (settings : Layer1Settings) : String :=
  "grep -q " ++ settings.deployerGroup ++ " /etc/group"

/-- The second string `command` of `createDeployerGroup`: the creation of the
group. -/
def groupaddCmd (settings : Layer1Settings) : String :=
  sudoStdinLogin ("groupadd " ++ settings.deployerGroup) settings

/-- The function `createDeployerGroup`. -/
def createDeployerGroup (settings : Layer1Settings) : Remote (Option GoError) := do
  let (_, _, err) ← runCommand (groupProbeCmd settings)
  match err with
  | none => createDeployerGroupSudoers settings
  | some _ =>
    let (stdout, stderr, err) ← runCommand (groupaddCmd settings)
    match err with
    | some err =>
      pure (some (GoError.mk ("error creating deployer group: " ++ err.Error ++
        " [" ++ stdout ++ " " ++ stderr ++ "]")))
    | none => createDeployerGroupSudoers settings

/-- The string `useraddCmd` of `createDeployerUser`. -/
def useraddCmd (settings : Layer1Settings) : String :=
  "useradd -m -c 'deployer' -s /bin/bash -g '" ++ settings.deployerGroup ++ "' " ++
    settings.deployerUser

/-- The function `createDeployerUser`. -/
def createDeployerUser (settings : Layer1Settings) : Remote (Option GoError) := do
  let (_, _, err) ← runCommand ("id " ++ settings.deployerUser)
  match err with
  | none => pure none
  | some _ =>
  let (_, _, err) ← runCommand (sudoStdinLogin (useraddCmd settings) settings)
  match err with
  | some err => pure (some err)
  | none =>
  let chpasswdCmd :=
    "echo " ++ settings.deployerUser ++ ":" ++ settings.deployerPassword ++ " | chpasswd"
  let (_, _, err) ← runCommand (sudoStdinLogin chpasswdCmd settings)
  match err with
  | some err => pure (some err)
  | none =>
  let usermodCmd := "usermod -a -G " ++ settings.deployerGroup ++ " " ++ settings.deployerUser
  let (_, _, err) ← runCommand (sudoStdinLogin usermodCmd settings)
  match err with
  | some err => pure (some err)
  | none =>
  let mkdirsshCmd := "mkdir /home/" ++ settings.deployerUser ++ "/.ssh"
  let (_, _, err) ← runCommand (sudoStdinLogin mkdirsshCmd settings)
  match err with
  | some err => pure (some err)
  | none =>
  let chownCmd := "chown -R " ++ settings.deployerUser ++ ":" ++ settings.deployerGroup ++
    " /home/" ++ settings.deployerUser
  let (_, _, err) ← runCommand (sudoStdinLogin chownCmd settings)
  match err with
  | some err => pure (some err)
  | none => pure none

/-- The function `setRootPassword`. -/
def setRootPassword (settings : Layer1Settings) : Remote (Option GoError) := do
  let chpasswdCmd := "echo root:" ++ settings.rootPassword ++ " | chpasswd"
  let (_, _, err) ← runCommand (sudoStdinLogin chpasswdCmd settings)
  match err with
  | some err => pure (some err)
  | none => pure none

/-- The function `setupsshdConfig`. -/
def setupsshdConfig (settings : Layer1Settings) : Remote (Option GoError) := do
  let config := "/etc/ssh/sshd_config"
  let backupCmd := "cp " ++ config ++ " " ++ config ++ ".backup"
  let (_, _, err) ← runCommand (sudoStdinLogin backupCmd settings)
  match err with
  | some err => pure (some err)
  | none =>
  let usePamCmd := "sed -i \"s/^UsePAM yes/UsePAM no/\" " ++ config
  let (_, _, err) ← runCommand (sudoStdinLogin usePamCmd settings)
  match err with
  | some err => pure (some err)
  | none =>
  let permitRootLoginCmd := "sed -i \"s/^PermitRootLogin yes/PermitRootLogin no/\" " ++ config
  let (_, _, err) ← runCommand (sudoStdinLogin permitRootLoginCmd settings)
  match err with
  | some err => pure (some err)
  | none =>
  let passwordAuthCmd :=
    "sed -i \"s/^#PasswordAuthentication yes/PasswordAuthentication no/\" " ++ config
  let (_, _, err) ← runCommand (sudoStdinLogin passwordAuthCmd settings)
  match err with
  | some err => pure (some err)
  | none =>
  let (_, _, err) ← runCommand (sudoStdinLogin "service ssh reload" settings)
  match err with
  | some err => pure (some err)
  | none => pure none

/-- The function `setHostname`. -/
def setHostname (settings : Layer1Settings) : Remote (Option GoError) := do
  let hostnameCmd := "echo \"" ++ settings.hostname ++ "\" > /etc/hostname"
  let (_, _, err) ← runCommand (sudoStdinLogin hostnameCmd settings)
  match err with
  | some err => pure (some err)
  | none =>
  let hostCmd := "echo \"127.0.0.1\t\t" ++ settings.hostname ++ "\" >> /etc/hosts"
  let (_, _, err) ← runCommand (sudoStdinLogin hostCmd settings)
  match err with
  | some err => pure (some err)
  | none => pure none

/-- The function `disableLoginUser`. -/
def disableLoginUser (settings : Layer1Settings) : Remote (Option GoError) := do
  let passwdCmd := "passwd -d " ++ settings.loginUser
  let (_, _, err) ← runCommand (sudoStdinLogin passwdCmd settings)
  match err with
  | some err => pure (some err)
  | none =>
  let usermodCmd := "usermod -s /usr/sbin/nologin " ++ settings.loginUser
  let (_, _, err) ← runCommand (sudoStdinLogin usermodCmd settings)
  match err with
  | some err => pure (some err)
  | none => pure none

/-- The function `setupDeployer` from the call of `uploadsshKeys` on. -/
def setupDeployerKeysOn (ext : Collaborators) (settings : Layer1Settings) :
    Remote (Option GoError) := do
  let err ← ext.uploadsshKeys
    { user := settings.deployerUser
      password := settings.loginPassword
      group := settings.deployerGroup
      s3Bucket := settings.s3Bucket
      s3File := settings.s3File
      s3Region := settings.s3Region }
  match err with
  | some err => pure (some err)
  | none =>
  let err ← setupsshdConfig settings
  match err with
  | some err => pure (some err)
  | none =>
  let err ← setHostname settings
  match err with
  | some err => pure (some err)
  | none =>
  let err ← disableLoginUser settings
  match err with
  | some err => pure (some err)
  | none => pure none

/-- The function `setupDeployer` from the call of `createDeployerUser` on: what it
runs once `createDeployerGroup` has returned `nil`. -/
def setupDeployerUserOn (ext : Collaborators) (settings : Layer1Settings) :
    Remote (Option GoError) := do
  let err ← createDeployerUser settings
  match err with
  | some err => pure (some err)
  | none =>
  if settings.rootPassword.length > 0 then
    let err ← setRootPassword settings
    match err with
    | some _ => pure none
    | none => setupDeployerKeysOn ext settings
  else
    setupDeployerKeysOn ext settings

/-- The function `setupDeployer`. -/
def setupDeployer (ext : Collaborators) (settings : Layer1Settings) :
    Remote (Option GoError) := do
  let err ← createDeployerGroup settings
  match err with
  | some err => pure (some err)
  | none =>
  let err ← createDeployerUser settings
  match err with
  | some err => pure (some err)
  | none =>
  if settings.rootPassword.length > 0 then
    let err ← setRootPassword settings
    match err with
    | some _ => pure none
    | none => setupDeployerKeysOn ext settings
  else
    setupDeployerKeysOn ext settings

/-- The function `layer1`: the way it ends and the commands it ran on the host.  The
connection is closed on every way out and nothing is run on it afterwards. -/
def layer1 (ext : Collaborators) (args : Layer1Args) : Out (Option GoError) × Trace :=
  match ext.splitAwsPath args.s3Path with
  | .error err => (.ret (some err), [])
  | .ok (s3Region, s3Bucket, s3File) =>
  let address := args.host ++ ":" ++ toString args.port
  match ext.dial address args.loginUser args.loginPassword with
  | .error err =>
    if stringsContains err.Error "no supported methods remain" = true then
      (.ret none, [])
    else
      (.ret (some err), [])
  | .ok conn =>
    Remote.run (do
      let err ← setupDeployer ext
        { loginUser := args.loginUser
          loginPassword := args.loginPassword
          deployerGroup := args.deployerUser
          deployerUser := args.deployerUser
          deployerPassword := args.deployerPassword
          hostname := args.hostname
          s3Bucket := s3Bucket
          s3File := s3File
          s3Region := s3Region
          rootPassword := args.rootPassword }
      match err with
      | some err => pure (some err)
      | none =>
      if args.staticIP.length ≠ 0 then
        ext.setupNetworking { ip := args.staticIP, password := args.loginPassword }
        pure none
      else
        pure none) conn []

/-- The struct that `layer1` passes to `setupDeployer`: the group is named after
the user. -/
def layer1Settings (args : Layer1Args) (s3Region s3Bucket s3File : String) : Layer1Settings :=
  { loginUser := args.loginUser
    loginPassword := args.loginPassword
    deployerGroup := args.deployerUser
    deployerUser := args.deployerUser
    deployerPassword := args.deployerPassword
    hostname := args.hostname
    s3Bucket := s3Bucket
    s3File := s3File
    s3Region := s3Region
    rootPassword := args.rootPassword }

/-- The values given on the command line of `layer1`, each under the name of its
flag: `--login-user`, `--login-password`, `--deployer-user`, `--deployer-password`,
`--root-password`, `--host`, `--hostname`, `--port`, `--s3-path`, `--static-ip`. -/
structure Layer1Flags where
  loginUserFlag : String
  loginPasswordFlag : String
  deployerUserFlag : String
  deployerPasswordFlag : String
  rootPasswordFlag : String
  hostFlag : String
  hostnameFlag : String
  portFlag : Int
  s3PathFlag : String
  staticIPFlag : List Nat
deriving DecidableEq, Repr

/-- The variable `args` of `NewLayer1Cmd` once the command line is parsed: each call
`Flags().StringVar(&args.field, "flag", ...)` stores the value of the flag in the
field whose address it was given.  The calls are listed in the order of the
source. -/
def NewLayer1CmdArgs (flags : Layer1Flags) : Layer1Args :=
  { loginUser := flags.loginUserFlag
    loginPassword := flags.loginPasswordFlag
    deployerPassword := flags.deployerUserFlag
    deployerUser := flags.deployerPasswordFlag
    rootPassword := flags.rootPasswordFlag
    host := flags.hostFlag
    hostname := flags.hostnameFlag
    port := flags.portFlag
    s3Path := flags.s3PathFlag
    staticIP := flags.staticIPFlag }

/-- The closure `RunE` of `NewLayer1Cmd`: the way `layer1` ends, the commands run on
the host, and the text that the closure itself prints (the progress lines of the
steps are not part of it). -/
def NewLayer1CmdRunE (ext : Collaborators) (flags : Layer1Flags) :
    (Out (Option GoError) × Trace) × String :=
  let args := NewLayer1CmdArgs flags
  match layer1 ext args with
  | (.ret none, tr) =>
    ((.ret none, tr),
      "Provisioning layer 1...\n" ++
      "\nLayer 1 provisioned successfully\n" ++
      "Note: you must restart the server to apply the hostname change " ++
        "and suppress the security risk warning\n" ++
      "\nContinue with layer 2 or ssh into server:\n" ++
      "  ssh " ++ args.deployerUser ++ "@" ++ args.host ++ "\n")
  | r => (r, "Provisioning layer 1...\n")

/-! ## cmd/layer2.go -/

/-- The struct `Layer2Args`. -/
structure Layer2Args where
  user : String
  host : String
  port : Int
deriving DecidableEq, Repr

/-- The function `InstallLibraries`. -/
def InstallLibraries : Remote (Option GoError) := do
  let (_, _, err) ← runCommand (basicSudoStdin "apt-get update" "")
  match err with
  | some err => pure (some err)
  | none =>
  let (_, _, err) ← runCommand (basicSudoStdin "apt-get upgrade -y" "")
  match err with
  | some err => pure (some err)
  | none =>
  let libraries := ["build-essential", "cmake", "cron", "curl", "git", "libffi-dev", "nano",
    "python3-pip", "python3", "wget"]
  let installCmd := "apt-get install " ++ stringsJoin libraries " " ++ " -y"
  let (_, _, err) ← runCommand (basicSudoStdin installCmd "")
  match err with
  | some err => pure (some err)
  | none => pure none

/-- The function `InstallFish` after the probe: the install commands. -/
def InstallFishApply (args : Layer2Args) : Remote (Bool × Option GoError) := do
  let (_, _, err) ← runCommand ("echo 'deb http://download.opensuse.org/repositories/shells:/fish:/release:/3/Debian_10/ /' | sudo tee /etc/apt/sources.list.d/shells:fish:release:3.list")
  match err with
  | some err => pure (false, some err)
  | none =>
  let (_, _, err) ← runCommand ("curl -fsSL https://download.opensuse.org/repositories/shells:fish:release:3/Debian_10/Release.key | gpg --dearmor | sudo tee /etc/apt/trusted.gpg.d/shells_fish_release_3.gpg")
  match err with
  | some err => pure (false, some err)
  | none =>
  let (_, _, err) ← runCommand ("sudo wget -nv https://download.opensuse.org/repositories/shells:fish:release:3/Debian_10/Release.key -O '/etc/apt/trusted.gpg.d/shells_fish_release_3.asc'")
  match err with
  | some err => pure (false, some err)
  | none =>
  let (_, _, err) ← runCommand (basicSudoStdin "apt update" "")
  match err with
  | some err => pure (false, some err)
  | none =>
  let (_, _, err) ← runCommand (basicSudoStdin "apt install fish -y" "")
  match err with
  | some err => pure (false, some err)
  | none =>
  let chshCmd := "chsh -s /usr/bin/fish " ++ args.user
  let (_, _, err) ← runCommand (basicSudoStdin chshCmd "")
  match err with
  | some err => pure (false, some err)
  | none =>
  let (_, _, err) ← runCommand "curl -L https://get.oh-my.fish > /tmp/omf.sh"
  match err with
  | some err => pure (false, some err)
  | none =>
  let (_, _, err) ← runCommand "fish /tmp/omf.sh --noninteractive"
  match err with
  | some err => pure (false, some err)
  | none =>
  let (_, _, err) ← runCommand "rm /tmp/omf.sh"
  match err with
  | some err => pure (false, some err)
  | none =>
  let (_, _, err) ← runCommand "echo omf install agnoster | fish"
  match err with
  | some err => pure (false, some err)
  | none =>
  let (_, _, err) ← runCommand "echo omf theme agnoster | fish"
  match err with
  | some err => pure (false, some err)
  | none =>
  let (_, _, err) ← runCommand "echo omf install bang-bang | fish"
  match err with
  | some err => pure (false, some err)
  | none => pure (true, none)

/-- The function `InstallFish`. -/
def InstallFish (args : Layer2Args) : Remote (Bool × Option GoError) := do
  let (_, _, err) ← runCommand "which fish"
  match err with
  | none => pure (false, none)
  | some _ => InstallFishApply args

/-- The function `InstallDocker` after the probe: the install commands. -/
def InstallDockerApply (args : Layer2Args) : Remote (Bool × Option GoError) := do
  let (_, _, err) ← runCommand "curl -fsSL https://get.docker.com -o /tmp/get-docker.sh"
  match err with
  | some err => pure (false, some err)
  | none =>
  let (_, _, err) ← runCommand "sudo sh /tmp/get-docker.sh"
  match err with
  | some err => pure (false, some err)
  | none =>
  let (_, _, err) ← runCommand "rm /tmp/get-docker.sh"
  match err with
  | some err => pure (false, some err)
  | none =>
  let (_, _, err) ← runCommand ("sudo usermod -aG docker " ++ args.user)
  match err with
  | some err => pure (false, some err)
  | none => pure (true, none)

/-- The function `InstallDocker`. -/
def InstallDocker (args : Layer2Args) : Remote (Bool × Option GoError) := do
  let (_, _, err) ← runCommand "which docker"
  match err with
  | none => pure (false, none)
  | some _ => InstallDockerApply args

/-- The function `InstallDockerCompose` after the probe: the install commands. -/
def InstallDockerComposeApply (args : Layer2Args) : Remote (Bool × Option GoError) := do
  let (_, _, err) ← runCommand "mkdir -p ~/.local/bin"
  match err with
  | some err => pure (false, some err)
  | none =>
  let localBinPath := "/home/" ++ args.user ++ "/.local/bin"
  let (paths, _, err) ← runCommand "bash -c \"echo $PATH\""
  match err with
  | some err => pure (false, some err)
  | none =>
  let pathList := stringsSplit (stringsTrim paths "\n") ':'
  let err ← (if localBinPath ∈ pathList then pure none else do
    let (_, _, err) ← runCommand ("echo fish_add_path " ++ localBinPath ++ " | fish")
    pure err : Remote (Option GoError))
  match err with
  | some err => pure (false, some err)
  | none =>
  let (_, _, err) ← runCommand "python3 -m pip install docker-compose"
  match err with
  | some err => pure (false, some err)
  | none => pure (true, none)

/-- The function `InstallDockerCompose`. -/
def InstallDockerCompose (args : Layer2Args) : Remote (Bool × Option GoError) := do
  let (_, _, err) ← runCommand "which docker-compose"
  match err with
  | none => pure (false, none)
  | some _ => InstallDockerComposeApply args

end cmd

/-! ## A reference word splitter for the POSIX shell

The reference that C9 reads the wrapped command with.  It follows the token
recognition of the POSIX shell for the fragment the wrapper needs: words separated
by blanks, single quotes, double quotes, the backslash, and the pipe between the
commands of a pipeline.  Text that the shell would expand or treat as another
operator is outside this fragment and makes the splitter answer `none`. -/

namespace Shell

/-- The single quote. -/
def squote : Char := Char.ofNat 39

/-- The double quote. -/
def dquote : Char := Char.ofNat 34

/-- The backslash. -/
def backslash : Char := Char.ofNat 92

/-- The dollar sign. -/
def dollar : Char := Char.ofNat 36

/-- The accent that opens a command substitution. -/
def backquote : Char := Char.ofNat 96

/-- Where the splitter is: between or inside plain words, inside single quotes,
inside double quotes, right after a backslash, or right after a backslash
inside double quotes. -/
inductive Mode where
  | normal
  | single
  | double
  | escape
  | doubleEscape
deriving DecidableEq, Repr

/-- The state of the splitter: the mode, the word being read (if one has begun), the
words of the command being read and the commands already read, newest first. -/
structure State where
  mode : Mode
  cur : Option (List Char)
  words : List String
  cmds : List (List String)
deriving DecidableEq, Repr

/-- The state before the first character. -/
def init : State := ⟨.normal, none, [], []⟩

/-- Adds a character to the word being read, beginning one if needed. -/
def addChar (st : State) (c : Char) : State :=
  { st with cur := some (st.cur.getD [] ++ [c]) }

/-- Ends the word being read, if one has begun. -/
def endWord (st : State) : State :=
  match st.cur with
  | none => st
  | some w => { st with cur := none, words := String.mk w :: st.words }

/-- Ends the command being read; a command without a word is a syntax error. -/
def endCommand (st : State) : Option State :=
  if (endWord st).words = [] then none
  else some ⟨.normal, none, [], (endWord st).words.reverse :: (endWord st).cmds⟩

/-- Characters that, outside quotes, start an expansion, a comment or an operator
other than the pipe, or end the line: outside the fragment. -/
def unsupported : List Char :=
  [Char.ofNat 38, Char.ofNat 59, Char.ofNat 60, Char.ofNat 62, Char.ofNat 40, Char.ofNat 41,
    dollar, backquote, Char.ofNat 35, Char.ofNat 42, Char.ofNat 63, Char.ofNat 91,
    Char.ofNat 126, Char.ofNat 33, Char.ofNat 61, Char.ofNat 123, Char.ofNat 125,
    Char.ofNat 10]

/-- One character of input. -/
def step (st : State) (c : Char) : Option State :=
  match st.mode with
  | .normal =>
    if c = ' ' ∨ c = '\t' then some (endWord st)
    else if c = squote then some { st with mode := .single, cur := some (st.cur.getD []) }
    else if c = dquote then some { st with mode := .double, cur := some (st.cur.getD []) }
    else if c = backslash then some { st with mode := .escape }
    else if c = '|' then endCommand st
    else if c ∈ unsupported then none
    else some (addChar st c)
  | .single =>
    if c = squote then some { st with mode := .normal } else some (addChar st c)
  | .double =>
    if c = dquote then some { st with mode := .normal }
    else if c = backslash then some { st with mode := .doubleEscape }
    else if c = dollar ∨ c = backquote then none
    else some (addChar st c)
  | .escape =>
    if c = '\n' then none else some { addChar st c with mode := .normal }
  | .doubleEscape =>
    if c = dollar ∨ c = backquote ∨ c = dquote ∨ c = backslash then
      some { addChar st c with mode := .double }
    else if c = '\n' then none
    else some { addChar (addChar st backslash) c with mode := .double }

/-- The input, character by character. -/
def run (st : State) : List Char → Option State
  | [] => some st
  | c :: cs => (step st c).bind (fun st1 => run st1 cs)

/-- The end of the input: an open quote or a pending backslash is an error,
otherwise the last command ends and the pipeline is returned, oldest first. -/
def finish (st : State) : Option (List (List String)) :=
  if st.mode = .normal then (endCommand st).map (fun st1 => st1.cmds.reverse) else none

/-- The pipeline that the shell reads from a command line: the words of each of its
commands. -/
def shellSplit (s : String) : Option (List (List String)) :=
  (run init s.data).bind finish

/-- A character that stands for itself in a word outside quotes. -/
def isPlain (c : Char) : Prop :=
  c ≠ ' ' ∧ c ≠ '\t' ∧ c ≠ squote ∧ c ≠ dquote ∧ c ≠ backslash ∧ c ≠ '|' ∧ c ∉ unsupported

end Shell

/-! ## Concrete hosts for the examples -/

namespace ssh

open Go Model

/-- A host on which the file of keys holds the lines `b`, `a`, `a` and every
command succeeds. -/
def hostWithKeysBAA : World := fun _ c =>
  if c = "cat /home/u/.ssh/authorized_keys" then .ran "b\na\na\n" "" none else .ran "" "" none

end ssh

namespace ssh

open Go Model

/-- A host on which the file of keys holds the lines `a`, `b` and every command
succeeds. -/
def hostWithKeysAB : World := fun _ c =>
  if c = "cat /home/u/.ssh/authorized_keys" then .ran "a\nb\n" "" none else .ran "" "" none

end ssh

namespace ssh

open Go Model

/-- A host on which the file of keys holds the line `x` and every command succeeds
but the `chmod 600` of the file, which exits with status 1. -/
def hostChmodFileFails : World := fun _ c =>
  if c = "cat /home/u/.ssh/authorized_keys" then .ran "x\n" "" none
  else if c = "echo pw | sudo -S bash -c 'chmod 600 /home/u/.ssh/authorized_keys'" then
    .ran "" "" (some (.mk "Process exited with status 1"))
  else .ran "" "" none

end ssh

namespace ssh

open Go Model

/-- A host on which every command succeeds and the file of keys holds the line `x`
until it is overwritten with the empty content; from then on `cat` prints what
`echo ""` wrote, a single newline. -/
def hostOverwrittenEmpty : World := fun tr c =>
  if c = "cat /home/u/.ssh/authorized_keys" then
    if "echo pw | sudo -S bash -c 'echo \"\" > /home/u/.ssh/authorized_keys'" ∈ tr then
      .ran "\n" "" none
    else .ran "x\n" "" none
  else .ran "" "" none

end ssh

namespace cmd

open Go Model

/-- A host on which every command succeeds and prints nothing. -/
def hostAllOk : World := fun _ _ => .ran "" "" none

/-- The settings of the examples: login `pi`, group and user `deployers`. -/
def exampleSettings : Layer1Settings :=
  { loginUser := "pi", loginPassword := "raspberry", deployerGroup := "deployers",
    deployerUser := "deployers", deployerPassword := "secret", hostname := "rpi",
    s3Bucket := "bucket", s3File := "keys", s3Region := "eu-west-1", rootPassword := "toor" }

/-- A host on which every command succeeds and `/etc/sudoers` already holds the
rule of the group `deployers`. -/
def hostWithRule : World := fun _ c =>
  if c = "echo raspberry | sudo -S bash -c 'cat /etc/sudoers'" then
    .ran "root ALL=(ALL:ALL) ALL\n\ndeployers ALL=(ALL) NOPASSWD: ALL\n\n" "" none
  else .ran "" "" none

end cmd

namespace cmd

open Go Model

/-- A host on which every command succeeds but the `chpasswd` of root, which
exits with status 1. -/
def hostRootPasswordFails : World := fun _ c =>
  if c = "echo raspberry | sudo -S bash -c 'echo root:toor | chpasswd'" then
    .ran "" "" (some (.mk "Process exited with status 1"))
  else .ran "" "" none

/-- The collaborators of the examples: the S3 path parses, the dial answers with
`dial`, the step `uploadsshKeys` is the reconciler of `ssh/ssh.go` with one key
from the provider, and `setupNetworking` runs nothing. -/
def exampleCollaborators (dial : Except GoError World) : Collaborators :=
  { splitAwsPath := fun _ => .ok ("eu-west-1", "bucket", "keys")
    dial := fun _ _ _ => dial
    uploadsshKeys := fun a => do
      let r ← ssh.UploadsshKeys (fun _ => .ok ["ssh-rsa AAAA deployer@laptop"])
        { User := a.user, Password := a.password, Group := a.group,
          KeysUri := a.s3Region ++ "/" ++ a.s3Bucket ++ "/" ++ a.s3File }
      pure r.2
    setupNetworking := fun _ => pure () }

/-- The arguments of the examples. -/
def exampleArgs : Layer1Args :=
  { loginUser := "pi", loginPassword := "raspberry", deployerUser := "deployers",
    deployerPassword := "secret", rootPassword := "toor", host := "10.0.0.2",
    hostname := "rpi", port := 22, s3Path := "eu-west-1/bucket/keys", staticIP := [] }

end cmd

namespace ssh

open Go Model

/-- A host whose server refuses every new session. -/
def hostNoSession : World := fun _ _ =>
  .sessionErr (.mk "ssh: rejected: administratively prohibited (open failed)")

end ssh

namespace cmd

open Go Model

/-- A host on which the group `deployers` exists and the login user may not use
`sudo`: the elevated `whoami` exits with status 1; every other command succeeds. -/
def hostSudoRefused : World := fun _ c =>
  if c = "echo raspberry | sudo -S bash -c 'whoami'" then
    .ran "" "pi is not in the sudoers file." (some (.mk "Process exited with status 1"))
  else .ran "" "" none

/-- A host without any deployer account: every `id` exits with status 1, every
other command succeeds and prints nothing. -/
def hostFresh : World := fun _ c =>
  if "id ".data.isPrefixOf c.data then
    .ran "" "" (some (.mk "Process exited with status 1"))
  else .ran "" "" none

/-- The command line `layer1 --login-user pi --login-password raspberry
--deployer-user deployer --deployer-password s3cret --host 10.0.0.2 --hostname rpi
--s3-path eu-west-1/bucket/keys`. -/
def exampleFlags : Layer1Flags :=
  { loginUserFlag := "pi", loginPasswordFlag := "raspberry", deployerUserFlag := "deployer",
    deployerPasswordFlag := "s3cret", rootPasswordFlag := "", hostFlag := "10.0.0.2",
    hostnameFlag := "rpi", portFlag := 22, s3PathFlag := "eu-west-1/bucket/keys",
    staticIPFlag := [] }

end cmd

namespace cmd

open Go Model

/-- The settings of the examples with a group whose name is a newline followed by
`x`. -/
def newlineGroupSettings : Layer1Settings :=
  { exampleSettings with deployerGroup := "\nx" }

/-- A host on which every command succeeds and `/etc/sudoers` holds, from its first
character on, the rule of the group of `newlineGroupSettings`. -/
def hostRuleAtStart : World := fun _ c =>
  if c = "echo raspberry | sudo -S bash -c 'cat /etc/sudoers'" then
    .ran "\nx ALL=(ALL) NOPASSWD: ALL\n" "" none
  else .ran "" "" none

end cmd

/-! ## Facts about the library model -/

namespace Go

theorem lessChars_iff_lex (a b : List Char) :
    lessChars a b = true ↔ List.Lex (fun x y : Char => x < y) a b := by
  induction a generalizing b with
  | nil =>
    cases b with
    | nil => simp [lessChars]
    | cons y ys => simp [lessChars, List.Lex.nil]
  | cons x xs ih =>
    cases b with
    | nil => simp [lessChars]
    | cons y ys =>
      unfold lessChars
      by_cases h1 : x.toNat < y.toNat
      · simp only [h1, if_true, true_iff]
        exact List.Lex.rel h1
      · by_cases h2 : y.toNat < x.toNat
        · simp only [h1, h2, if_true, if_false]
          constructor
          · intro h; cases h
          · intro h
            cases h with
            | cons h => exact absurd h2 (lt_irrefl _)
            | rel h => exact absurd h h1
        · have hxy : x = y := by
            apply Char.ext
            apply UInt32.ext
            have : x.toNat = y.toNat := by omega
            exact this
          subst hxy
          simp only [h1, if_false, ih]
          exact (List.Lex.cons_iff).symm

/-- The comparison of the model is the order of Lean strings. -/
theorem stringLess_iff_lt (a b : String) : stringLess a b = true ↔ a < b := by
  rw [String.lt_iff_toList_lt]
  exact lessChars_iff_lex a.data b.data

theorem stringLE_iff_le (a b : String) : stringLE a b ↔ a ≤ b := by
  unfold stringLE
  rw [← not_lt, ← stringLess_iff_lt]
  simp

instance : IsTotal String stringLE :=
  ⟨fun a b => by simpa only [stringLE_iff_le] using le_total a b⟩

instance : IsTrans String stringLE :=
  ⟨fun a b c => by simpa only [stringLE_iff_le] using le_trans⟩

instance : IsAntisymm String stringLE :=
  ⟨fun a b => by simpa only [stringLE_iff_le] using le_antisymm⟩

theorem sortStrings_sorted (xs : List String) : List.Sorted stringLE (sortStrings xs) :=
  List.sorted_insertionSort stringLE xs

theorem sortStrings_perm (xs : List String) : (sortStrings xs).Perm xs :=
  List.perm_insertionSort stringLE xs

/-- Any sorted rearrangement of a slice is the result of `sortStrings`: the choice
of the sorting algorithm does not matter. -/
theorem sortStrings_unique (xs ys : List String) (hp : ys.Perm xs)
    (hs : List.Sorted stringLE ys) : ys = sortStrings xs :=
  List.eq_of_perm_of_sorted (hp.trans (sortStrings_perm xs).symm) hs (sortStrings_sorted xs)

end Go

namespace ssh

open Go Model

/-- The loop of `removeDuplicateStr` from any state in which the map holds the
strings of the slice built so far, and that slice has no duplicate. -/
theorem removeDuplicateStr_loop (l : List String) (seen out : List String)
    (hso : ∀ x, x ∈ seen ↔ x ∈ out) (hnd : out.Nodup) :
    let st := l.foldl
      (fun (st : List String × List String) item =>
        if item ∈ st.1 then st else (item :: st.1, st.2 ++ [item])) (seen, out)
    st.2.Nodup ∧ ∀ x, x ∈ st.2 ↔ x ∈ out ∨ x ∈ l := by
  induction l generalizing seen out with
  | nil => simp [hnd]
  | cons a l ih =>
    simp only [List.foldl_cons]
    by_cases ha : a ∈ seen
    · simp only [ha, if_true]
      have h := ih seen out hso hnd
      refine ⟨h.1, fun x => ?_⟩
      rw [h.2 x, List.mem_cons]
      constructor
      · rintro (h1 | h1)
        · exact Or.inl h1
        · exact Or.inr (Or.inr h1)
      · rintro (h1 | h1 | h1)
        · exact Or.inl h1
        · exact Or.inl (h1 ▸ (hso a).1 ha)
        · exact Or.inr h1
    · simp only [ha, if_false]
      have hao : a ∉ out := fun h => ha ((hso a).2 h)
      have h := ih (a :: seen) (out ++ [a])
        (fun x => by simp only [List.mem_cons, List.mem_append, List.mem_singleton, hso x]; tauto)
        (by
          rw [List.nodup_append]
          refine ⟨hnd, List.nodup_singleton a, ?_⟩
          intro x hx hx2
          rw [List.mem_singleton] at hx2
          exact hao (hx2 ▸ hx))
      refine ⟨h.1, fun x => ?_⟩
      rw [h.2 x]
      simp only [List.mem_append, List.mem_singleton, List.mem_cons]
      tauto

theorem removeDuplicateStr_nodup (l : List String) : (removeDuplicateStr l).Nodup :=
  (removeDuplicateStr_loop l [] [] (fun _ => Iff.rfl) List.nodup_nil).1

theorem mem_removeDuplicateStr (l : List String) (x : String) :
    x ∈ removeDuplicateStr l ↔ x ∈ l := by
  have h := (removeDuplicateStr_loop l [] [] (fun _ => Iff.rfl) List.nodup_nil).2 x
  simpa using h

theorem mem_finalKeysOf (newKeys : List String) (k : String) :
    k ∈ finalKeysOf newKeys ↔ k ∈ newKeys := by
  unfold finalKeysOf
  rw [(sortStrings_perm _).mem_iff, mem_removeDuplicateStr]

/-- C2: the list that `UploadsshKeys` compares with and writes, `removeDuplicateStr`
followed by `sort.Strings`, is sorted in the lexicographic order of strings,
holds no string twice, and holds exactly the strings of the desired list. -/
theorem finalKeys_sorted_nodup_exact (newKeys : List String) :
    List.Sorted (fun a b : String => a ≤ b) (finalKeysOf newKeys)
    ∧ (finalKeysOf newKeys).Nodup
    ∧ ∀ k, k ∈ finalKeysOf newKeys ↔ k ∈ newKeys := by
  unfold finalKeysOf
  refine ⟨?_, ?_, ?_⟩
  · have h := sortStrings_sorted (removeDuplicateStr newKeys)
    exact h.imp (fun {a b} hab => (stringLE_iff_le a b).1 hab)
  · exact (sortStrings_perm _).nodup_iff.2 (removeDuplicateStr_nodup newKeys)
  · intro k
    rw [(sortStrings_perm _).mem_iff, mem_removeDuplicateStr]

end ssh

namespace Go

/-- Trimming leaves a list alone when neither its first nor its last element is in
the cut set. -/
theorem trim_eq_self {α : Type} (p : α → Bool) (l : List α)
    (hh : ∀ c, l.head? = some c → p c = false)
    (ht : ∀ c, l.getLast? = some c → p c = false) :
    (l.dropWhile p).rdropWhile p = l := by
  have h1 : l.dropWhile p = l := by
    rw [List.dropWhile_eq_self_iff]
    intro hl
    have : l.head? = some (l.get ⟨0, hl⟩) := by
      cases l with
      | nil => simp at hl
      | cons a l => simp
    have h2 := hh _ this
    simp only [List.get_eq_getElem] at h2
    simp [h2]
  rw [h1, List.rdropWhile_eq_self_iff]
  intro hl
  simp [ht _ (List.getLast?_eq_getLast l hl)]

/-- The last element of a trimmed list is not in the cut set. -/
theorem trim_getLast {α : Type} (p : α → Bool) (l : List α) (c : α)
    (h : ((l.dropWhile p).rdropWhile p).getLast? = some c) : p c = false := by
  by_cases hl : (l.dropWhile p).rdropWhile p = []
  · rw [hl] at h; simp at h
  · rw [List.getLast?_eq_getLast _ hl] at h
    have := List.rdropWhile_last_not p (l.dropWhile p) hl
    simp only [Option.some.injEq] at h
    rw [h] at this
    simpa using this

/-- The first element of a trimmed list is not in the cut set. -/
theorem trim_head {α : Type} (p : α → Bool) (l : List α) (c : α)
    (h : ((l.dropWhile p).rdropWhile p).head? = some c) : p c = false := by
  obtain ⟨t, ht⟩ := List.rdropWhile_prefix p (l.dropWhile p)
  have h2 : (l.dropWhile p).head? = some c := by
    rw [← ht]
    cases hr : (l.dropWhile p).rdropWhile p with
    | nil => rw [hr] at h; simp at h
    | cons a r => rw [hr] at h; simpa using h
  have := List.head?_dropWhile_not p l
  rw [h2] at this
  exact this

theorem intercalate_cons_cons {α : Type} (sep a b : List α) (r : List (List α)) :
    sep.intercalate (a :: b :: r) = a ++ sep ++ sep.intercalate (b :: r) := by
  simp [List.intercalate]

theorem intercalate_singleton {α : Type} (sep a : List α) : sep.intercalate [a] = a := by
  simp [List.intercalate]

/-- The first element of a join of non-empty pieces is the first element of one
of the pieces. -/
theorem intercalate_head {α : Type} (sep : List α) (ls : List (List α))
    (hne : ∀ l ∈ ls, l ≠ []) (c : α) (h : (sep.intercalate ls).head? = some c) :
    ∃ l ∈ ls, l.head? = some c := by
  cases ls with
  | nil => simp [List.intercalate] at h
  | cons a r =>
    have ha : a ≠ [] := hne a (List.mem_cons_self a r)
    cases r with
    | nil =>
      rw [intercalate_singleton] at h
      exact ⟨a, List.mem_cons_self _ _, h⟩
    | cons b r =>
      rw [intercalate_cons_cons, List.append_assoc, List.head?_append_of_ne_nil _ ha] at h
      exact ⟨a, List.mem_cons_self _ _, h⟩

/-- The last element of a join of non-empty pieces is the last element of one of
the pieces. -/
theorem intercalate_getLast {α : Type} (sep : List α) (ls : List (List α))
    (hne : ∀ l ∈ ls, l ≠ []) (c : α) (h : (sep.intercalate ls).getLast? = some c) :
    ∃ l ∈ ls, l.getLast? = some c := by
  induction ls with
  | nil => simp [List.intercalate] at h
  | cons a r ih =>
    cases r with
    | nil =>
      rw [intercalate_singleton] at h
      exact ⟨a, List.mem_cons_self _ _, h⟩
    | cons b r =>
      have hne2 : ∀ l ∈ b :: r, l ≠ [] := fun l hl => hne l (List.mem_cons_of_mem a hl)
      have hb : sep.intercalate (b :: r) ≠ [] := by
        have hbne : b ≠ [] := hne2 b (List.mem_cons_self _ _)
        cases r with
        | nil => rwa [intercalate_singleton]
        | cons c2 r2 =>
          rw [intercalate_cons_cons, List.append_assoc]
          intro h0
          exact hbne (List.append_eq_nil.1 h0).1
      rw [intercalate_cons_cons, List.getLast?_append_of_ne_nil _ hb] at h
      obtain ⟨l, hl, hc⟩ := ih hne2 h
      exact ⟨l, List.mem_cons_of_mem a hl, hc⟩

theorem head?_mem {α : Type} (l : List α) (c : α) (h : l.head? = some c) : c ∈ l := by
  cases l with
  | nil => simp at h
  | cons a r =>
    simp only [List.head?_cons, Option.some.injEq] at h
    simp [h]

/-- Joining keys that are non-empty and free of newlines gives a text that
`strings.Trim` leaves alone. -/
theorem trim_join_eq (keys : List String)
    (hk : ∀ k ∈ keys, k ≠ "" ∧ '\n' ∉ k.data) :
    stringsTrim (stringsJoin keys "\n") "\n" = stringsJoin keys "\n" := by
  unfold stringsTrim stringsJoin
  congr 1
  have hne : ∀ l ∈ keys.map String.data, l ≠ [] := by
    intro l hl
    obtain ⟨k, hkm, rfl⟩ := List.mem_map.1 hl
    intro h0
    exact (hk k hkm).1 (String.ext h0)
  have hnl : ∀ l ∈ keys.map String.data, '\n' ∉ l := by
    intro l hl
    obtain ⟨k, hkm, rfl⟩ := List.mem_map.1 hl
    exact (hk k hkm).2
  apply trim_eq_self
  · intro c hc
    obtain ⟨l, hl, hlc⟩ := intercalate_head _ _ hne c hc
    have hcl : c ∈ l := head?_mem l c hlc
    have : c ≠ '\n' := fun h0 => hnl l hl (h0 ▸ hcl)
    simpa using this
  · intro c hc
    obtain ⟨l, hl, hlc⟩ := intercalate_getLast _ _ hne c hc
    have hcl : c ∈ l := List.mem_of_getLast?_eq_some hlc
    have : c ≠ '\n' := fun h0 => hnl l hl (h0 ▸ hcl)
    simpa using this

/-- The result of `strings.Trim` does not end with a character of the cut set. -/
theorem stringsTrim_getLast (s cutset : String) (c : Char)
    (h : (stringsTrim s cutset).data.getLast? = some c) : c ∉ cutset.data := by
  have := trim_getLast _ _ c h
  simpa using this

/-- The result of `strings.Trim` does not start with a character of the cut set. -/
theorem stringsTrim_head (s cutset : String) (c : Char)
    (h : (stringsTrim s cutset).data.head? = some c) : c ∉ cutset.data := by
  have := trim_head _ _ c h
  simpa using this

end Go

namespace Model

open Go

@[simp] theorem run_pure {α : Type} (a : α) (w : World) (tr : Trace) :
    (pure a : Remote α).run w tr = (.ret a, tr) := rfl

theorem run_bind {α β : Type} (m : Remote α) (f : α → Remote β) (w : World) (tr : Trace) :
    (m >>= f).run w tr =
      match m.run w tr with
      | (.ret a, tr1) => (f a).run w tr1
      | (.panic e, tr1) => (.panic e, tr1) := rfl

theorem run_bind_ret {α β : Type} (m : Remote α) (f : α → Remote β) (w : World) (tr tr1 : Trace)
    (a : α) (h : m.run w tr = (.ret a, tr1)) : (m >>= f).run w tr = (f a).run w tr1 := by
  rw [run_bind, h]

theorem run_bind_panic {α β : Type} (m : Remote α) (f : α → Remote β) (w : World)
    (tr tr1 : Trace) (e : GoError) (h : m.run w tr = (.panic e, tr1)) :
    (m >>= f).run w tr = (.panic e, tr1) := by
  rw [run_bind, h]

end Model

namespace ssh

open Go Model

theorem run_runCommand (cmd : String) (w : World) (tr : Trace) (o e : String)
    (s : Option GoError) (h : w tr cmd = .ran o e s) :
    (runCommand cmd).run w tr = (.ret (o, e, s), tr ++ [cmd]) := by
  simp [Remote.run, runCommand, h]

/-- A command that the channel runs, followed by the rest of the function. -/
theorem run_runCommand_bind {β : Type} (cmd : String)
    (f : String × String × Option GoError → Remote β) (w : World) (tr : Trace) (o e : String)
    (s : Option GoError) (h : w tr cmd = .ran o e s) :
    (runCommand cmd >>= f).run w tr = (f (o, e, s)).run w (tr ++ [cmd]) :=
  run_bind_ret _ _ _ _ _ _ (run_runCommand cmd w tr o e s h)

theorem foldl_flag_true (P : Nat → Prop) [DecidablePred P] (l : List Nat) (b : Bool) :
    l.foldl (fun equal i => if P i then false else equal) b = true ↔
      b = true ∧ ∀ i ∈ l, ¬ P i := by
  induction l generalizing b with
  | nil => simp
  | cons a l ih =>
    rw [List.foldl_cons, ih]
    by_cases h : P a
    · simp [h]
    · simp [h]

/-- The loop of `UploadsshKeys` leaves `equal` true exactly when the two slices
agree at every index below the length of the first. -/
theorem keysEqualLoop_iff (a f : List String) :
    keysEqualLoop a f = true ↔ ∀ i, i < a.length → a.getD i "" = f.getD i "" := by
  unfold keysEqualLoop
  rw [foldl_flag_true (fun i => a.getD i "" ≠ f.getD i "")]
  simp

/-- The test of `UploadsshKeys` for "nothing to do" is equality of the slices. -/
theorem unchanged_test_iff (a f : List String) :
    (a.length = f.length ∧ keysEqualLoop a f = true) ↔ a = f := by
  rw [keysEqualLoop_iff]
  constructor
  · rintro ⟨hl, h⟩
    apply List.ext_getElem hl
    intro i h1 h2
    have := h i h1
    rwa [List.getD_eq_getElem _ _ h1, List.getD_eq_getElem _ _ h2] at this
  · rintro rfl
    exact ⟨rfl, fun _ _ => rfl⟩

end ssh

namespace ssh

open Go Model

/-- The run of `UploadsshKeys` up to its test, when the directory is created, the
`cat` is run and the provider answers. -/
theorem UploadsshKeys_run_test (getKeys : String → Except GoError (List String))
    (args : UploadsshKeysArgs) (w : World) (newKeys : List String)
    (o1 e1 content e2 : String) (caterr : Option GoError)
    (hmkdir : w [] (mkdirCmd args) = .ran o1 e1 none)
    (hcat : w [mkdirCmd args] (catCmd args) = .ran content e2 caterr)
    (hkeys : getKeys args.KeysUri = .ok newKeys) :
    (UploadsshKeys getKeys args).run w [] =
      if currentKeys content caterr = finalKeysOf newKeys then
        (.ret (false, none), [mkdirCmd args, catCmd args])
      else
        (UploadsshKeysWrite (newFileContentOf (finalKeysOf newKeys)) args).run w
          [mkdirCmd args, catCmd args] := by
  unfold UploadsshKeys Run
  rw [run_runCommand_bind _ _ _ _ _ _ _ hmkdir]
  simp only [List.nil_append, List.cons_append]
  rw [run_runCommand_bind _ _ _ _ _ _ _ hcat]
  simp only [List.nil_append, List.cons_append]
  rw [hkeys]
  dsimp only
  simp only [unchanged_test_iff]
  split <;> simp

end ssh

namespace ssh

open Go Model

/-- The write phase when the channel runs all five commands without error. -/
theorem UploadsshKeysWrite_run_ok (content : String) (args : UploadsshKeysArgs) (w : World)
    (tr : Trace) (o1 e1 o2 e2 o3 e3 o4 e4 o5 e5 : String)
    (h1 : w tr (basicSudoStdin (updateKeysCmd content args) args.Password) = .ran o1 e1 none)
    (h2 : w (tr ++ [basicSudoStdin (updateKeysCmd content args) args.Password])
      (basicSudoStdin (chmodsshCmd args) args.Password) = .ran o2 e2 none)
    (h3 : w (tr ++ [basicSudoStdin (updateKeysCmd content args) args.Password,
        basicSudoStdin (chmodsshCmd args) args.Password])
      (basicSudoStdin (chmodAkpath args) args.Password) = .ran o3 e3 none)
    (h4 : w (tr ++ [basicSudoStdin (updateKeysCmd content args) args.Password,
        basicSudoStdin (chmodsshCmd args) args.Password,
        basicSudoStdin (chmodAkpath args) args.Password])
      (basicSudoStdin (chownsshCmd args) args.Password) = .ran o4 e4 none)
    (h5 : w (tr ++ [basicSudoStdin (updateKeysCmd content args) args.Password,
        basicSudoStdin (chmodsshCmd args) args.Password,
        basicSudoStdin (chmodAkpath args) args.Password,
        basicSudoStdin (chownsshCmd args) args.Password])
      (basicSudoStdin (chownAkpCmd args) args.Password) = .ran o5 e5 none) :
    (UploadsshKeysWrite content args).run w tr =
      (.ret (true, none),
        tr ++ [basicSudoStdin (updateKeysCmd content args) args.Password,
          basicSudoStdin (chmodsshCmd args) args.Password,
          basicSudoStdin (chmodAkpath args) args.Password,
          basicSudoStdin (chownsshCmd args) args.Password,
          basicSudoStdin (chownAkpCmd args) args.Password]) := by
  unfold UploadsshKeysWrite RunSudoPassword Run
  rw [run_runCommand_bind _ _ _ _ _ _ _ h1]
  simp only [List.nil_append, List.cons_append, List.append_assoc]
  rw [run_runCommand_bind _ _ _ _ _ _ _ h2]
  simp only [List.nil_append, List.cons_append, List.append_assoc]
  rw [run_runCommand_bind _ _ _ _ _ _ _ h3]
  simp only [List.nil_append, List.cons_append, List.append_assoc]
  rw [run_runCommand_bind _ _ _ _ _ _ _ h4]
  simp only [List.nil_append, List.cons_append, List.append_assoc]
  rw [run_runCommand_bind _ _ _ _ _ _ _ h5]
  simp only [List.nil_append, List.cons_append, List.append_assoc, run_pure]

end ssh

namespace ssh

open Go Model

/-- C3, as the code has it: when `UploadsshKeys` finds the keys changed and the
channel runs every command without error, it returns `(true, nil)` after exactly
five elevated commands, in this order and each wrapped with the password of the
arguments: the overwrite of `/home/<user>/.ssh/authorized_keys`, `chmod 700` on
`/home/<user>/.ssh`, `chmod 600` on the file, `chown <user>:<group>` on the
directory and on the file.  The list written is sorted, holds no string twice and
holds exactly the desired strings.  The content written is the newline-join of
that list with the newlines at both ends trimmed: it neither starts nor ends with
a newline, and it is the newline-join itself exactly when the join neither starts
nor ends with a newline, as when no key is empty or holds a newline. -/
theorem UploadsshKeys_changed_run (getKeys : String → Except GoError (List String))
    (args : UploadsshKeysArgs) (w : World) (newKeys : List String)
    (o1 e1 content e2 : String) (caterr : Option GoError)
    (o3 e3 o4 e4 o5 e5 o6 e6 o7 e7 : String)
    (hmkdir : w [] (mkdirCmd args) = .ran o1 e1 none)
    (hcat : w [mkdirCmd args] (catCmd args) = .ran content e2 caterr)
    (hkeys : getKeys args.KeysUri = .ok newKeys)
    (hchanged : ¬ ((currentKeys content caterr).length = (finalKeysOf newKeys).length ∧
      keysEqualLoop (currentKeys content caterr) (finalKeysOf newKeys) = true))
    (h3 : w [mkdirCmd args, catCmd args]
      (basicSudoStdin (updateKeysCmd (newFileContentOf (finalKeysOf newKeys)) args)
        args.Password) = .ran o3 e3 none)
    (h4 : w [mkdirCmd args, catCmd args,
        basicSudoStdin (updateKeysCmd (newFileContentOf (finalKeysOf newKeys)) args)
          args.Password]
      (basicSudoStdin (chmodsshCmd args) args.Password) = .ran o4 e4 none)
    (h5 : w [mkdirCmd args, catCmd args,
        basicSudoStdin (updateKeysCmd (newFileContentOf (finalKeysOf newKeys)) args)
          args.Password,
        basicSudoStdin (chmodsshCmd args) args.Password]
      (basicSudoStdin (chmodAkpath args) args.Password) = .ran o5 e5 none)
    (h6 : w [mkdirCmd args, catCmd args,
        basicSudoStdin (updateKeysCmd (newFileContentOf (finalKeysOf newKeys)) args)
          args.Password,
        basicSudoStdin (chmodsshCmd args) args.Password,
        basicSudoStdin (chmodAkpath args) args.Password]
      (basicSudoStdin (chownsshCmd args) args.Password) = .ran o6 e6 none)
    (h7 : w [mkdirCmd args, catCmd args,
        basicSudoStdin (updateKeysCmd (newFileContentOf (finalKeysOf newKeys)) args)
          args.Password,
        basicSudoStdin (chmodsshCmd args) args.Password,
        basicSudoStdin (chmodAkpath args) args.Password,
        basicSudoStdin (chownsshCmd args) args.Password]
      (basicSudoStdin (chownAkpCmd args) args.Password) = .ran o7 e7 none) :
    (UploadsshKeys getKeys args).run w [] =
      (.ret (true, none),
        [mkdirCmd args, catCmd args,
          basicSudoStdin (updateKeysCmd (newFileContentOf (finalKeysOf newKeys)) args)
            args.Password,
          basicSudoStdin (chmodsshCmd args) args.Password,
          basicSudoStdin (chmodAkpath args) args.Password,
          basicSudoStdin (chownsshCmd args) args.Password,
          basicSudoStdin (chownAkpCmd args) args.Password])
    ∧ [basicSudoStdin (updateKeysCmd (newFileContentOf (finalKeysOf newKeys)) args)
          args.Password,
        basicSudoStdin (chmodsshCmd args) args.Password,
        basicSudoStdin (chmodAkpath args) args.Password,
        basicSudoStdin (chownsshCmd args) args.Password,
        basicSudoStdin (chownAkpCmd args) args.Password] =
      ["echo " ++ args.Password ++ " | sudo -S bash -c '" ++
          ("echo \"" ++ stringsTrim (stringsJoin (finalKeysOf newKeys) "\n") "\n" ++
            "\" > /home/" ++ args.User ++ "/.ssh/authorized_keys") ++ "'",
        "echo " ++ args.Password ++ " | sudo -S bash -c '" ++
          ("chmod 700 " ++ ("/home/" ++ args.User ++ "/.ssh")) ++ "'",
        "echo " ++ args.Password ++ " | sudo -S bash -c '" ++
          ("chmod 600 " ++ ("/home/" ++ args.User ++ "/.ssh" ++ "/authorized_keys")) ++ "'",
        "echo " ++ args.Password ++ " | sudo -S bash -c '" ++
          ("chown " ++ (args.User ++ ":" ++ args.Group) ++ " " ++
            ("/home/" ++ args.User ++ "/.ssh")) ++ "'",
        "echo " ++ args.Password ++ " | sudo -S bash -c '" ++
          ("chown " ++ (args.User ++ ":" ++ args.Group) ++ " " ++
            ("/home/" ++ args.User ++ "/.ssh" ++ "/authorized_keys")) ++ "'"]
    ∧ List.Sorted (fun a b : String => a ≤ b) (finalKeysOf newKeys)
    ∧ (finalKeysOf newKeys).Nodup
    ∧ (∀ k, k ∈ finalKeysOf newKeys ↔ k ∈ newKeys)
    ∧ (newFileContentOf (finalKeysOf newKeys)).data.head? ≠ some '\n'
    ∧ (newFileContentOf (finalKeysOf newKeys)).data.getLast? ≠ some '\n'
    ∧ (newFileContentOf (finalKeysOf newKeys) = stringsJoin (finalKeysOf newKeys) "\n" ↔
        (stringsJoin (finalKeysOf newKeys) "\n").data.head? ≠ some '\n'
        ∧ (stringsJoin (finalKeysOf newKeys) "\n").data.getLast? ≠ some '\n')
    ∧ ((∀ k ∈ newKeys, k ≠ "" ∧ '\n' ∉ k.data) →
        newFileContentOf (finalKeysOf newKeys) = stringsJoin (finalKeysOf newKeys) "\n") := by
  refine ⟨?_, rfl, ?_, ?_, mem_finalKeysOf newKeys, ?_, ?_, ?_, ?_⟩
  · rw [UploadsshKeys_run_test getKeys args w newKeys o1 e1 content e2 caterr hmkdir hcat hkeys]
    rw [unchanged_test_iff] at hchanged
    rw [if_neg hchanged]
    exact UploadsshKeysWrite_run_ok _ args w [mkdirCmd args, catCmd args] o3 e3 o4 e4 o5 e5
      o6 e6 o7 e7 h3 h4 h5 h6 h7
  · have h := sortStrings_sorted (removeDuplicateStr newKeys)
    exact h.imp (fun {a b} hab => (stringLE_iff_le a b).1 hab)
  · exact (sortStrings_perm _).nodup_iff.2 (removeDuplicateStr_nodup newKeys)
  · intro h
    exact stringsTrim_head _ _ _ h (by decide)
  · intro h
    exact stringsTrim_getLast _ _ _ h (by decide)
  · constructor
    · intro heq
      rw [← heq]
      exact ⟨fun h => stringsTrim_head _ _ _ h (by decide),
        fun h => stringsTrim_getLast _ _ _ h (by decide)⟩
    · rintro ⟨hh, ht⟩
      unfold newFileContentOf stringsTrim
      apply String.ext
      apply trim_eq_self
      · intro c hc
        have : c ≠ '\n' := fun h0 => hh (h0 ▸ hc)
        simpa using this
      · intro c hc
        have : c ≠ '\n' := fun h0 => ht (h0 ▸ hc)
        simpa using this
  · intro hk
    apply trim_join_eq
    intro k hkm
    have : k ∈ newKeys := (mem_finalKeysOf newKeys k).1 hkm
    exact hk k this

/-- C3, two examples on a host that holds the lines `b`, `a`, `a`.  With the
desired keys `b`, `a` (the example of the spec) and with the desired keys `b`, `a`,
`b`, `a`, the keys count as changed and the file is rewritten with the content `a`,
newline, `b`: each key once, in order. -/
theorem UploadsshKeys_changed_run_witness :
    currentKeys "b\na\na\n" none = ["b", "a", "a"]
    ∧ finalKeysOf ["b", "a"] = ["a", "b"]
    ∧ (UploadsshKeys (fun _ => .ok ["b", "a"]) ⟨"u", "pw", "g", "uri"⟩).run hostWithKeysBAA [] =
      (.ret (true, none),
        ["mkdir -p /home/u/.ssh",
         "cat /home/u/.ssh/authorized_keys",
         "echo pw | sudo -S bash -c 'echo \"a\nb\" > /home/u/.ssh/authorized_keys'",
         "echo pw | sudo -S bash -c 'chmod 700 /home/u/.ssh'",
         "echo pw | sudo -S bash -c 'chmod 600 /home/u/.ssh/authorized_keys'",
         "echo pw | sudo -S bash -c 'chown u:g /home/u/.ssh'",
         "echo pw | sudo -S bash -c 'chown u:g /home/u/.ssh/authorized_keys'"])
    ∧ finalKeysOf ["b", "a", "b", "a"] = ["a", "b"]
    ∧ (UploadsshKeys (fun _ => .ok ["b", "a", "b", "a"]) ⟨"u", "pw", "g", "uri"⟩).run
        hostWithKeysBAA [] =
      (.ret (true, none),
        ["mkdir -p /home/u/.ssh",
         "cat /home/u/.ssh/authorized_keys",
         "echo pw | sudo -S bash -c 'echo \"a\nb\" > /home/u/.ssh/authorized_keys'",
         "echo pw | sudo -S bash -c 'chmod 700 /home/u/.ssh'",
         "echo pw | sudo -S bash -c 'chmod 600 /home/u/.ssh/authorized_keys'",
         "echo pw | sudo -S bash -c 'chown u:g /home/u/.ssh'",
         "echo pw | sudo -S bash -c 'chown u:g /home/u/.ssh/authorized_keys'"]) :=
  ⟨by decide, by decide,
    (UploadsshKeys_changed_run (fun _ => .ok ["b", "a"]) ⟨"u", "pw", "g", "uri"⟩ hostWithKeysBAA
      ["b", "a"] "" "" "b\na\na\n" "" none "" "" "" "" "" "" "" "" "" ""
      (by decide) (by decide) rfl (by decide) (by decide) (by decide) (by decide) (by decide)
      (by decide)).1,
    by decide,
    (UploadsshKeys_changed_run (fun _ => .ok ["b", "a", "b", "a"]) ⟨"u", "pw", "g", "uri"⟩
      hostWithKeysBAA ["b", "a", "b", "a"] "" "" "b\na\na\n" "" none "" "" "" "" "" "" "" ""
      "" "" (by decide) (by decide) rfl (by decide) (by decide) (by decide) (by decide)
      (by decide) (by decide)).1⟩

/-- C3 fails for a desired list with an empty string: for the keys `a` and the
empty string the deduplicated sorted list is the empty string followed by `a`, its
newline-join is a newline followed by `a`, and the content written is `a` alone. -/
theorem UploadsshKeys_writes_trimmed_join :
    finalKeysOf ["a", ""] = ["", "a"]
    ∧ stringsJoin (finalKeysOf ["a", ""]) "\n" = "\na"
    ∧ newFileContentOf (finalKeysOf ["a", ""]) = "a"
    ∧ (UploadsshKeys (fun _ => .ok ["a", ""]) ⟨"u", "pw", "g", "uri"⟩).run hostWithKeysBAA [] =
      (.ret (true, none),
        ["mkdir -p /home/u/.ssh",
         "cat /home/u/.ssh/authorized_keys",
         "echo pw | sudo -S bash -c 'echo \"a\" > /home/u/.ssh/authorized_keys'",
         "echo pw | sudo -S bash -c 'chmod 700 /home/u/.ssh'",
         "echo pw | sudo -S bash -c 'chmod 600 /home/u/.ssh/authorized_keys'",
         "echo pw | sudo -S bash -c 'chown u:g /home/u/.ssh'",
         "echo pw | sudo -S bash -c 'chown u:g /home/u/.ssh/authorized_keys'"]) := by
  refine ⟨by decide, by decide, by decide, by decide⟩

end ssh

namespace Model

open Go

theorem prefix_pure {α : Type} (a : α) (w : World) (tr : Trace) :
    tr <+: ((pure a : Remote α).run w tr).2 := by
  simp

theorem prefix_bind {α β : Type} (m : Remote α) (f : α → Remote β)
    (hm : ∀ w tr, tr <+: (m.run w tr).2) (hf : ∀ a w tr, tr <+: ((f a).run w tr).2)
    (w : World) (tr : Trace) : tr <+: ((m >>= f).run w tr).2 := by
  rw [run_bind]
  have h1 := hm w tr
  rcases hr : m.run w tr with ⟨r, tr1⟩
  rw [hr] at h1
  cases r with
  | ret a => exact h1.trans (hf a w tr1)
  | panic e => exact h1

/-- A sequence does not return a value that its second part never returns. -/
theorem ne_ret_bind {α β : Type} (m : Remote α) (f : α → Remote β) (b : β)
    (hf : ∀ a w tr, ((f a).run w tr).1 ≠ .ret b) (w : World) (tr : Trace) :
    ((m >>= f).run w tr).1 ≠ .ret b := by
  rw [run_bind]
  rcases m.run w tr with ⟨r, tr1⟩
  cases r with
  | ret a => exact hf a w tr1
  | panic e => simp

end Model

namespace ssh

open Go Model

/-- The run of one command by the channel, in every case. -/
theorem run_runCommand_cases (cmd : String) (w : World) (tr : Trace) :
    (runCommand cmd).run w tr =
      match w tr cmd with
      | .sessionErr e => (.panic e, tr)
      | .stdoutErr e => (.panic e, tr)
      | .stderrErr e => (.panic e, tr)
      | .ran stdout stderr err => (.ret (stdout, stderr, err), tr ++ [cmd]) := rfl

theorem prefix_runCommand (cmd : String) (w : World) (tr : Trace) :
    tr <+: ((runCommand cmd).run w tr).2 := by
  rw [run_runCommand_cases]
  split <;> simp

/-- The write phase only adds commands to the trace. -/
theorem prefix_UploadsshKeysWrite (content : String) (args : UploadsshKeysArgs) (w : World)
    (tr : Trace) : tr <+: ((UploadsshKeysWrite content args).run w tr).2 := by
  unfold UploadsshKeysWrite RunSudoPassword Run
  revert w tr
  refine prefix_bind _ _ (prefix_runCommand _) ?_
  rintro ⟨o, e, s⟩
  cases s with
  | some err => exact prefix_pure _
  | none =>
  refine prefix_bind _ _ (prefix_runCommand _) ?_
  rintro ⟨o, e, s⟩
  cases s with
  | some err => exact prefix_pure _
  | none =>
  refine prefix_bind _ _ (prefix_runCommand _) ?_
  rintro ⟨o, e, s⟩
  cases s with
  | some err => exact prefix_pure _
  | none =>
  refine prefix_bind _ _ (prefix_runCommand _) ?_
  rintro ⟨o, e, s⟩
  cases s with
  | some err => exact prefix_pure _
  | none =>
  refine prefix_bind _ _ (prefix_runCommand _) ?_
  rintro ⟨o, e, s⟩
  cases s with
  | some err => exact prefix_pure _
  | none => exact prefix_pure _

/-- The write phase never ends with `(false, nil)`. -/
theorem UploadsshKeysWrite_ne_unchanged (content : String) (args : UploadsshKeysArgs)
    (w : World) (tr : Trace) :
    ((UploadsshKeysWrite content args).run w tr).1 ≠ .ret (false, none) := by
  unfold UploadsshKeysWrite RunSudoPassword Run
  revert w tr
  refine ne_ret_bind _ _ _ ?_
  rintro ⟨o, e, s⟩
  cases s with
  | some err => intro w tr; simp
  | none =>
  refine ne_ret_bind _ _ _ ?_
  rintro ⟨o, e, s⟩
  cases s with
  | some err => intro w tr; simp
  | none =>
  refine ne_ret_bind _ _ _ ?_
  rintro ⟨o, e, s⟩
  cases s with
  | some err => intro w tr; simp
  | none =>
  refine ne_ret_bind _ _ _ ?_
  rintro ⟨o, e, s⟩
  cases s with
  | some err => intro w tr; simp
  | none =>
  refine ne_ret_bind _ _ _ ?_
  rintro ⟨o, e, s⟩
  cases s with
  | some err => intro w tr; simp
  | none => intro w tr; simp

end ssh

namespace ssh

open Go Model

/-- A command that does not start with the letter `e` is not an elevated one. -/
theorem ne_basicSudoStdin_of_head (c : String) (a : Char) (ha : c.data.head? = some a)
    (hne : a ≠ 'e') (x p : String) : c ≠ basicSudoStdin x p := by
  intro h
  rw [h] at ha
  have h1 : (basicSudoStdin x p).data.head? = some 'e' := by
    unfold basicSudoStdin
    simp only [String.data_append]
    rfl
  rw [h1] at ha
  exact hne (Option.some.inj ha).symm

theorem mkdirCmd_ne_sudo (args : UploadsshKeysArgs) (x p : String) :
    mkdirCmd args ≠ basicSudoStdin x p := by
  apply ne_basicSudoStdin_of_head _ 'm' _ (by decide)
  unfold mkdirCmd
  simp only [String.data_append]
  rfl

theorem catCmd_ne_sudo (args : UploadsshKeysArgs) (x p : String) :
    catCmd args ≠ basicSudoStdin x p := by
  apply ne_basicSudoStdin_of_head _ 'c' _ (by decide)
  unfold catCmd
  simp only [String.data_append]
  rfl

end ssh

namespace ssh

open Go Model

/-- Two slices are equal exactly when they have the same length and agree at every
index. -/
theorem eq_iff_same_length_and_entries (a f : List String) :
    a = f ↔ (a.length = f.length ∧ ∀ i, i < a.length → a[i]? = f[i]?) := by
  constructor
  · rintro rfl
    exact ⟨rfl, fun _ _ => rfl⟩
  · rintro ⟨hl, h⟩
    apply List.ext_getElem? 
    intro i
    by_cases hi : i < a.length
    · exact h i hi
    · rw [List.getElem?_eq_none (by omega), List.getElem?_eq_none (by omega)]

/-- The write phase starts with the overwrite: once the channel has run it, it is
in the trace right after the commands run before. -/
theorem UploadsshKeysWrite_first (content : String) (args : UploadsshKeysArgs) (w : World)
    (tr : Trace) (o e : String) (s : Option GoError)
    (hw : w tr (basicSudoStdin (updateKeysCmd content args) args.Password) = .ran o e s) :
    tr ++ [basicSudoStdin (updateKeysCmd content args) args.Password] <+:
      ((UploadsshKeysWrite content args).run w tr).2 := by
  unfold UploadsshKeysWrite RunSudoPassword Run
  rw [run_runCommand_bind _ _ _ _ _ _ _ hw]
  cases s with
  | some err => simp
  | none =>
  simp only []
  generalize tr ++ [basicSudoStdin (updateKeysCmd content args) args.Password] = tr1
  clear hw
  revert w tr1
  refine prefix_bind _ _ (prefix_runCommand _) ?_
  rintro ⟨o, e, s⟩
  cases s with
  | some err => exact prefix_pure _
  | none =>
  refine prefix_bind _ _ (prefix_runCommand _) ?_
  rintro ⟨o, e, s⟩
  cases s with
  | some err => exact prefix_pure _
  | none =>
  refine prefix_bind _ _ (prefix_runCommand _) ?_
  rintro ⟨o, e, s⟩
  cases s with
  | some err => exact prefix_pure _
  | none =>
  refine prefix_bind _ _ (prefix_runCommand _) ?_
  rintro ⟨o, e, s⟩
  cases s with
  | some err => exact prefix_pure _
  | none => exact prefix_pure _

/-- C4: with the directory created, the `cat` run (with or without error) and the
provider answering, `UploadsshKeys` returns `(false, nil)` without an elevated
command exactly when the current key lines and the deduplicated sorted desired
list have the same length and agree at every index; it then runs nothing after
the `cat`.  Otherwise it goes on with the write phase, whose first command is the
overwrite of the file. -/
theorem UploadsshKeys_unchanged_iff (getKeys : String → Except GoError (List String))
    (args : UploadsshKeysArgs) (w : World) (newKeys : List String)
    (o1 e1 content e2 : String) (caterr : Option GoError)
    (hmkdir : w [] (mkdirCmd args) = .ran o1 e1 none)
    (hcat : w [mkdirCmd args] (catCmd args) = .ran content e2 caterr)
    (hkeys : getKeys args.KeysUri = .ok newKeys) :
    ((((UploadsshKeys getKeys args).run w []).1 = .ret (false, none)
        ∧ ∀ c ∈ ((UploadsshKeys getKeys args).run w []).2, ∀ x p, c ≠ basicSudoStdin x p) ↔
      ((currentKeys content caterr).length = (finalKeysOf newKeys).length
        ∧ ∀ i, i < (currentKeys content caterr).length →
            (currentKeys content caterr)[i]? = (finalKeysOf newKeys)[i]?))
    ∧ (((currentKeys content caterr).length = (finalKeysOf newKeys).length
        ∧ ∀ i, i < (currentKeys content caterr).length →
            (currentKeys content caterr)[i]? = (finalKeysOf newKeys)[i]?) →
        (UploadsshKeys getKeys args).run w [] =
          (.ret (false, none), [mkdirCmd args, catCmd args]))
    ∧ (¬ ((currentKeys content caterr).length = (finalKeysOf newKeys).length
        ∧ ∀ i, i < (currentKeys content caterr).length →
            (currentKeys content caterr)[i]? = (finalKeysOf newKeys)[i]?) →
        (UploadsshKeys getKeys args).run w [] =
          (UploadsshKeysWrite (newFileContentOf (finalKeysOf newKeys)) args).run w
            [mkdirCmd args, catCmd args]
        ∧ ∀ o e s,
            w [mkdirCmd args, catCmd args]
              (basicSudoStdin (updateKeysCmd (newFileContentOf (finalKeysOf newKeys)) args)
                args.Password) = .ran o e s →
            [mkdirCmd args, catCmd args,
              basicSudoStdin (updateKeysCmd (newFileContentOf (finalKeysOf newKeys)) args)
                args.Password] <+: ((UploadsshKeys getKeys args).run w []).2) := by
  rw [← eq_iff_same_length_and_entries]
  have hrun := UploadsshKeys_run_test getKeys args w newKeys o1 e1 content e2 caterr
    hmkdir hcat hkeys
  refine ⟨?_, ?_, ?_⟩
  · constructor
    · rintro ⟨h1, _⟩
      by_contra hne
      rw [hrun, if_neg hne] at h1
      exact UploadsshKeysWrite_ne_unchanged _ _ _ _ h1
    · intro heq
      rw [hrun, if_pos heq]
      refine ⟨rfl, ?_⟩
      intro c hc x p
      simp only [List.mem_cons, List.mem_singleton, List.not_mem_nil, or_false] at hc
      rcases hc with rfl | rfl
      · exact mkdirCmd_ne_sudo args x p
      · exact catCmd_ne_sudo args x p
  · intro heq
    rw [hrun, if_pos heq]
  · intro hne
    rw [hrun, if_neg hne]
    refine ⟨rfl, ?_⟩
    intro o e s hw
    exact UploadsshKeysWrite_first _ args w [mkdirCmd args, catCmd args] o e s hw

/-- C4, an example: the host holds the lines `a`, `b` and the provider returns
`b`, `a`, `a`; nothing is written. -/
theorem UploadsshKeys_unchanged_iff_witness :
    (UploadsshKeys (fun _ => .ok ["b", "a", "a"]) ⟨"u", "pw", "g", "uri"⟩).run
        hostWithKeysAB [] =
      (.ret (false, none), ["mkdir -p /home/u/.ssh", "cat /home/u/.ssh/authorized_keys"]) :=
  (UploadsshKeys_unchanged_iff (fun _ => .ok ["b", "a", "a"]) ⟨"u", "pw", "g", "uri"⟩
    hostWithKeysAB ["b", "a", "a"] "" "" "a\nb\n" "" none (by decide) (by decide) rfl).2.1
    (by decide)

end ssh

namespace ssh

open Go Model

theorem run_runCommand_bind_ok {β : Type} (cmd : String)
    (f : String × String × Option GoError → Remote β) (w : World) (tr : Trace)
    (h : Succeeds w tr cmd) :
    ∃ o e, (runCommand cmd >>= f).run w tr = (f (o, e, none)).run w (tr ++ [cmd]) := by
  obtain ⟨o, e, h⟩ := h
  exact ⟨o, e, run_runCommand_bind cmd f w tr o e none h⟩

theorem run_runCommand_bind_fail {β : Type} (cmd : String)
    (f : String × String × Option GoError → Remote β) (w : World) (tr : Trace) (err : GoError)
    (h : FailsWith w tr cmd err) :
    ∃ o e, (runCommand cmd >>= f).run w tr = (f (o, e, some err)).run w (tr ++ [cmd]) := by
  obtain ⟨o, e, h⟩ := h
  exact ⟨o, e, run_runCommand_bind cmd f w tr o e (some err) h⟩

/-- The write phase when the command number 1 is the first to fail. -/
theorem UploadsshKeysWrite_run_fail_update (content : String) (args : UploadsshKeysArgs)
    (w : World) (tr : Trace) (err : GoError)
    (hf : FailsWith w tr
      (basicSudoStdin (updateKeysCmd content args) args.Password) err) :
    (UploadsshKeysWrite content args).run w tr =
      (.ret (false, some (errorfW "error updating authorized_keys: " err)),
        tr ++ [basicSudoStdin (updateKeysCmd content args) args.Password]) := by
  unfold UploadsshKeysWrite RunSudoPassword Run
  obtain ⟨o, e, h⟩ := run_runCommand_bind_fail _ _ _ _ _ hf
  rw [h]; clear h
  simp only [List.nil_append, List.cons_append, List.append_assoc, run_pure]

/-- The write phase when the command number 2 is the first to fail. -/
theorem UploadsshKeysWrite_run_fail_chmodssh (content : String) (args : UploadsshKeysArgs)
    (w : World) (tr : Trace) (err : GoError)
    (h1 : Succeeds w tr
      (basicSudoStdin (updateKeysCmd content args) args.Password))
    (hf : FailsWith w (tr ++ [basicSudoStdin (updateKeysCmd content args) args.Password])
      (basicSudoStdin (chmodsshCmd args) args.Password) err) :
    (UploadsshKeysWrite content args).run w tr =
      (.ret (false, some (errorfW "error setting permissions to ssh folder: " err)),
        tr ++ [basicSudoStdin (updateKeysCmd content args) args.Password, basicSudoStdin (chmodsshCmd args) args.Password]) := by
  unfold UploadsshKeysWrite RunSudoPassword Run
  obtain ⟨o, e, h⟩ := run_runCommand_bind_ok _ _ _ _ h1
  rw [h]; clear h
  simp only [List.nil_append, List.cons_append, List.append_assoc]
  obtain ⟨o, e, h⟩ := run_runCommand_bind_fail _ _ _ _ _ hf
  rw [h]; clear h
  simp only [List.nil_append, List.cons_append, List.append_assoc, run_pure]

/-- The write phase when the command number 3 is the first to fail. -/
theorem UploadsshKeysWrite_run_fail_chmodAkpath (content : String) (args : UploadsshKeysArgs)
    (w : World) (tr : Trace) (err : GoError)
    (h1 : Succeeds w tr
      (basicSudoStdin (updateKeysCmd content args) args.Password))
    (h2 : Succeeds w (tr ++ [basicSudoStdin (updateKeysCmd content args) args.Password])
      (basicSudoStdin (chmodsshCmd args) args.Password))
    (hf : FailsWith w (tr ++ [basicSudoStdin (updateKeysCmd content args) args.Password, basicSudoStdin (chmodsshCmd args) args.Password])
      (basicSudoStdin (chmodAkpath args) args.Password) err) :
    (UploadsshKeysWrite content args).run w tr =
      (.ret (false, some (errorfW "error setting permissions to authorized_keys: " err)),
        tr ++ [basicSudoStdin (updateKeysCmd content args) args.Password, basicSudoStdin (chmodsshCmd args) args.Password, basicSudoStdin (chmodAkpath args) args.Password]) := by
  unfold UploadsshKeysWrite RunSudoPassword Run
  obtain ⟨o, e, h⟩ := run_runCommand_bind_ok _ _ _ _ h1
  rw [h]; clear h
  simp only [List.nil_append, List.cons_append, List.append_assoc]
  obtain ⟨o, e, h⟩ := run_runCommand_bind_ok _ _ _ _ h2
  rw [h]; clear h
  simp only [List.nil_append, List.cons_append, List.append_assoc]
  obtain ⟨o, e, h⟩ := run_runCommand_bind_fail _ _ _ _ _ hf
  rw [h]; clear h
  simp only [List.nil_append, List.cons_append, List.append_assoc, run_pure]

/-- The write phase when the command number 4 is the first to fail. -/
theorem UploadsshKeysWrite_run_fail_chownssh (content : String) (args : UploadsshKeysArgs)
    (w : World) (tr : Trace) (err : GoError)
    (h1 : Succeeds w tr
      (basicSudoStdin (updateKeysCmd content args) args.Password))
    (h2 : Succeeds w (tr ++ [basicSudoStdin (updateKeysCmd content args) args.Password])
      (basicSudoStdin (chmodsshCmd args) args.Password))
    (h3 : Succeeds w (tr ++ [basicSudoStdin (updateKeysCmd content args) args.Password, basicSudoStdin (chmodsshCmd args) args.Password])
      (basicSudoStdin (chmodAkpath args) args.Password))
    (hf : FailsWith w (tr ++ [basicSudoStdin (updateKeysCmd content args) args.Password, basicSudoStdin (chmodsshCmd args) args.Password, basicSudoStdin (chmodAkpath args) args.Password])
      (basicSudoStdin (chownsshCmd args) args.Password) err) :
    (UploadsshKeysWrite content args).run w tr =
      (.ret (false, some (errorfW "error setting ownership of ssh folder: " err)),
        tr ++ [basicSudoStdin (updateKeysCmd content args) args.Password, basicSudoStdin (chmodsshCmd args) args.Password, basicSudoStdin (chmodAkpath args) args.Password, basicSudoStdin (chownsshCmd args) args.Password]) := by
  unfold UploadsshKeysWrite RunSudoPassword Run
  obtain ⟨o, e, h⟩ := run_runCommand_bind_ok _ _ _ _ h1
  rw [h]; clear h
  simp only [List.nil_append, List.cons_append, List.append_assoc]
  obtain ⟨o, e, h⟩ := run_runCommand_bind_ok _ _ _ _ h2
  rw [h]; clear h
  simp only [List.nil_append, List.cons_append, List.append_assoc]
  obtain ⟨o, e, h⟩ := run_runCommand_bind_ok _ _ _ _ h3
  rw [h]; clear h
  simp only [List.nil_append, List.cons_append, List.append_assoc]
  obtain ⟨o, e, h⟩ := run_runCommand_bind_fail _ _ _ _ _ hf
  rw [h]; clear h
  simp only [List.nil_append, List.cons_append, List.append_assoc, run_pure]

/-- The write phase when the command number 5 is the first to fail. -/
theorem UploadsshKeysWrite_run_fail_chownAkp (content : String) (args : UploadsshKeysArgs)
    (w : World) (tr : Trace) (err : GoError)
    (h1 : Succeeds w tr
      (basicSudoStdin (updateKeysCmd content args) args.Password))
    (h2 : Succeeds w (tr ++ [basicSudoStdin (updateKeysCmd content args) args.Password])
      (basicSudoStdin (chmodsshCmd args) args.Password))
    (h3 : Succeeds w (tr ++ [basicSudoStdin (updateKeysCmd content args) args.Password, basicSudoStdin (chmodsshCmd args) args.Password])
      (basicSudoStdin (chmodAkpath args) args.Password))
    (h4 : Succeeds w (tr ++ [basicSudoStdin (updateKeysCmd content args) args.Password, basicSudoStdin (chmodsshCmd args) args.Password, basicSudoStdin (chmodAkpath args) args.Password])
      (basicSudoStdin (chownsshCmd args) args.Password))
    (hf : FailsWith w (tr ++ [basicSudoStdin (updateKeysCmd content args) args.Password, basicSudoStdin (chmodsshCmd args) args.Password, basicSudoStdin (chmodAkpath args) args.Password, basicSudoStdin (chownsshCmd args) args.Password])
      (basicSudoStdin (chownAkpCmd args) args.Password) err) :
    (UploadsshKeysWrite content args).run w tr =
      (.ret (false, some (errorfW "error setting ownership of authorized_keys: " err)),
        tr ++ [basicSudoStdin (updateKeysCmd content args) args.Password, basicSudoStdin (chmodsshCmd args) args.Password, basicSudoStdin (chmodAkpath args) args.Password, basicSudoStdin (chownsshCmd args) args.Password, basicSudoStdin (chownAkpCmd args) args.Password]) := by
  unfold UploadsshKeysWrite RunSudoPassword Run
  obtain ⟨o, e, h⟩ := run_runCommand_bind_ok _ _ _ _ h1
  rw [h]; clear h
  simp only [List.nil_append, List.cons_append, List.append_assoc]
  obtain ⟨o, e, h⟩ := run_runCommand_bind_ok _ _ _ _ h2
  rw [h]; clear h
  simp only [List.nil_append, List.cons_append, List.append_assoc]
  obtain ⟨o, e, h⟩ := run_runCommand_bind_ok _ _ _ _ h3
  rw [h]; clear h
  simp only [List.nil_append, List.cons_append, List.append_assoc]
  obtain ⟨o, e, h⟩ := run_runCommand_bind_ok _ _ _ _ h4
  rw [h]; clear h
  simp only [List.nil_append, List.cons_append, List.append_assoc]
  obtain ⟨o, e, h⟩ := run_runCommand_bind_fail _ _ _ _ _ hf
  rw [h]; clear h
  simp only [List.nil_append, List.cons_append, List.append_assoc, run_pure]

end ssh

namespace Go

/-- Two texts neither of which starts with the other stay different whatever
follows them. -/
theorem append_ne_of_not_prefix (p q : String) (h : ¬ p.data <+: q.data)
    (h2 : ¬ q.data <+: p.data) (m1 m2 : String) : p ++ m1 ≠ q ++ m2 := by
  intro he
  have hd := congrArg String.data he
  simp only [String.data_append] at hd
  rcases List.append_eq_append_iff.1 hd with ⟨a, ha, _⟩ | ⟨c, hc, _⟩
  · exact h ⟨a, ha.symm⟩
  · exact h2 ⟨c, hc.symm⟩

end Go

namespace ssh

open Go Model

/-- C10: in `UploadsshKeys`, whichever of the seven fallible sub-steps fails first
(creating the directory, fetching the keys, the overwrite, the two `chmod`, the
two `chown`), the run stops there: the trace ends with the failing command (for
the provider, with the `cat`), the result is `(false, err)`, and `err` wraps the
underlying error behind a text that names the sub-step.  No two of the seven
texts can start the same message, so the message tells which sub-step failed. -/
theorem UploadsshKeys_first_failure (getKeys : String → Except GoError (List String))
    (args : UploadsshKeysArgs) (w : World) :
    (∀ err, FailsWith w [] (mkdirCmd args) err →
        (UploadsshKeys getKeys args).run w [] =
          (.ret (false, some (errorfW "error creating user's ssh directory: " err)),
            [mkdirCmd args]))
    ∧ (∀ content e2 caterr err, Succeeds w [] (mkdirCmd args) →
        w [mkdirCmd args] (catCmd args) = .ran content e2 caterr →
        getKeys args.KeysUri = .error err →
        (UploadsshKeys getKeys args).run w [] =
          (.ret (false, some (errorfW "error getting authorized keys: " err)),
            [mkdirCmd args, catCmd args]))
    ∧ (∀ newKeys content e2 caterr err, Succeeds w [] (mkdirCmd args) →
        w [mkdirCmd args] (catCmd args) = .ran content e2 caterr →
        getKeys args.KeysUri = .ok newKeys →
        currentKeys content caterr ≠ finalKeysOf newKeys →
        FailsWith w [mkdirCmd args, catCmd args]
          (basicSudoStdin (updateKeysCmd (newFileContentOf (finalKeysOf newKeys)) args) args.Password) err →
        (UploadsshKeys getKeys args).run w [] =
          (.ret (false, some (errorfW "error updating authorized_keys: " err)),
            [mkdirCmd args, catCmd args,
              basicSudoStdin (updateKeysCmd (newFileContentOf (finalKeysOf newKeys)) args) args.Password]))
    ∧ (∀ newKeys content e2 caterr err, Succeeds w [] (mkdirCmd args) →
        w [mkdirCmd args] (catCmd args) = .ran content e2 caterr →
        getKeys args.KeysUri = .ok newKeys →
        currentKeys content caterr ≠ finalKeysOf newKeys →
        Succeeds w [mkdirCmd args, catCmd args]
          (basicSudoStdin (updateKeysCmd (newFileContentOf (finalKeysOf newKeys)) args) args.Password) →
        FailsWith w [mkdirCmd args, catCmd args,
            basicSudoStdin (updateKeysCmd (newFileContentOf (finalKeysOf newKeys)) args) args.Password]
          (basicSudoStdin (chmodsshCmd args) args.Password) err →
        (UploadsshKeys getKeys args).run w [] =
          (.ret (false, some (errorfW "error setting permissions to ssh folder: " err)),
            [mkdirCmd args, catCmd args,
              basicSudoStdin (updateKeysCmd (newFileContentOf (finalKeysOf newKeys)) args) args.Password,
              basicSudoStdin (chmodsshCmd args) args.Password]))
    ∧ (∀ newKeys content e2 caterr err, Succeeds w [] (mkdirCmd args) →
        w [mkdirCmd args] (catCmd args) = .ran content e2 caterr →
        getKeys args.KeysUri = .ok newKeys →
        currentKeys content caterr ≠ finalKeysOf newKeys →
        Succeeds w [mkdirCmd args, catCmd args]
          (basicSudoStdin (updateKeysCmd (newFileContentOf (finalKeysOf newKeys)) args) args.Password) →
        Succeeds w [mkdirCmd args, catCmd args,
            basicSudoStdin (updateKeysCmd (newFileContentOf (finalKeysOf newKeys)) args) args.Password]
          (basicSudoStdin (chmodsshCmd args) args.Password) →
        FailsWith w [mkdirCmd args, catCmd args,
            basicSudoStdin (updateKeysCmd (newFileContentOf (finalKeysOf newKeys)) args) args.Password,
            basicSudoStdin (chmodsshCmd args) args.Password]
          (basicSudoStdin (chmodAkpath args) args.Password) err →
        (UploadsshKeys getKeys args).run w [] =
          (.ret (false, some (errorfW "error setting permissions to authorized_keys: " err)),
            [mkdirCmd args, catCmd args,
              basicSudoStdin (updateKeysCmd (newFileContentOf (finalKeysOf newKeys)) args) args.Password,
              basicSudoStdin (chmodsshCmd args) args.Password,
              basicSudoStdin (chmodAkpath args) args.Password]))
    ∧ (∀ newKeys content e2 caterr err, Succeeds w [] (mkdirCmd args) →
        w [mkdirCmd args] (catCmd args) = .ran content e2 caterr →
        getKeys args.KeysUri = .ok newKeys →
        currentKeys content caterr ≠ finalKeysOf newKeys →
        Succeeds w [mkdirCmd args, catCmd args]
          (basicSudoStdin (updateKeysCmd (newFileContentOf (finalKeysOf newKeys)) args) args.Password) →
        Succeeds w [mkdirCmd args, catCmd args,
            basicSudoStdin (updateKeysCmd (newFileContentOf (finalKeysOf newKeys)) args) args.Password]
          (basicSudoStdin (chmodsshCmd args) args.Password) →
        Succeeds w [mkdirCmd args, catCmd args,
            basicSudoStdin (updateKeysCmd (newFileContentOf (finalKeysOf newKeys)) args) args.Password,
            basicSudoStdin (chmodsshCmd args) args.Password]
          (basicSudoStdin (chmodAkpath args) args.Password) →
        FailsWith w [mkdirCmd args, catCmd args,
            basicSudoStdin (updateKeysCmd (newFileContentOf (finalKeysOf newKeys)) args) args.Password,
            basicSudoStdin (chmodsshCmd args) args.Password,
            basicSudoStdin (chmodAkpath args) args.Password]
          (basicSudoStdin (chownsshCmd args) args.Password) err →
        (UploadsshKeys getKeys args).run w [] =
          (.ret (false, some (errorfW "error setting ownership of ssh folder: " err)),
            [mkdirCmd args, catCmd args,
              basicSudoStdin (updateKeysCmd (newFileContentOf (finalKeysOf newKeys)) args) args.Password,
              basicSudoStdin (chmodsshCmd args) args.Password,
              basicSudoStdin (chmodAkpath args) args.Password,
              basicSudoStdin (chownsshCmd args) args.Password]))
    ∧ (∀ newKeys content e2 caterr err, Succeeds w [] (mkdirCmd args) →
        w [mkdirCmd args] (catCmd args) = .ran content e2 caterr →
        getKeys args.KeysUri = .ok newKeys →
        currentKeys content caterr ≠ finalKeysOf newKeys →
        Succeeds w [mkdirCmd args, catCmd args]
          (basicSudoStdin (updateKeysCmd (newFileContentOf (finalKeysOf newKeys)) args) args.Password) →
        Succeeds w [mkdirCmd args, catCmd args,
            basicSudoStdin (updateKeysCmd (newFileContentOf (finalKeysOf newKeys)) args) args.Password]
          (basicSudoStdin (chmodsshCmd args) args.Password) →
        Succeeds w [mkdirCmd args, catCmd args,
            basicSudoStdin (updateKeysCmd (newFileContentOf (finalKeysOf newKeys)) args) args.Password,
            basicSudoStdin (chmodsshCmd args) args.Password]
          (basicSudoStdin (chmodAkpath args) args.Password) →
        Succeeds w [mkdirCmd args, catCmd args,
            basicSudoStdin (updateKeysCmd (newFileContentOf (finalKeysOf newKeys)) args) args.Password,
            basicSudoStdin (chmodsshCmd args) args.Password,
            basicSudoStdin (chmodAkpath args) args.Password]
          (basicSudoStdin (chownsshCmd args) args.Password) →
        FailsWith w [mkdirCmd args, catCmd args,
            basicSudoStdin (updateKeysCmd (newFileContentOf (finalKeysOf newKeys)) args) args.Password,
            basicSudoStdin (chmodsshCmd args) args.Password,
            basicSudoStdin (chmodAkpath args) args.Password,
            basicSudoStdin (chownsshCmd args) args.Password]
          (basicSudoStdin (chownAkpCmd args) args.Password) err →
        (UploadsshKeys getKeys args).run w [] =
          (.ret (false, some (errorfW "error setting ownership of authorized_keys: " err)),
            [mkdirCmd args, catCmd args,
              basicSudoStdin (updateKeysCmd (newFileContentOf (finalKeysOf newKeys)) args) args.Password,
              basicSudoStdin (chmodsshCmd args) args.Password,
              basicSudoStdin (chmodAkpath args) args.Password,
              basicSudoStdin (chownsshCmd args) args.Password,
              basicSudoStdin (chownAkpCmd args) args.Password]))
    ∧ (∀ pre err, (errorfW pre err).Unwrap = some err ∧ (errorfW pre err).Error = pre ++ err.Error)
    ∧ List.Pairwise (fun p q : String => ∀ m1 m2 : String, p ++ m1 ≠ q ++ m2)
        ["error creating user's ssh directory: ",
         "error getting authorized keys: ",
         "error updating authorized_keys: ",
         "error setting permissions to ssh folder: ",
         "error setting permissions to authorized_keys: ",
         "error setting ownership of ssh folder: ",
         "error setting ownership of authorized_keys: "] := by
  refine ⟨?_, ?_, ?_, ?_, ?_, ?_, ?_, ?_, ?_⟩
  · intro err hf
    unfold UploadsshKeys Run
    obtain ⟨o, e, h⟩ := run_runCommand_bind_fail _ _ _ _ _ hf
    rw [h]
    simp
  · rintro content e2 caterr err ⟨o1, e1, hmkdir⟩ hcat hkeys
    unfold UploadsshKeys Run
    rw [run_runCommand_bind _ _ _ _ _ _ _ hmkdir]
    simp only [List.nil_append, List.cons_append]
    rw [run_runCommand_bind _ _ _ _ _ _ _ hcat]
    simp only [List.nil_append, List.cons_append]
    rw [hkeys]
    simp
  · rintro newKeys content e2 caterr err ⟨o1, e1, hmkdir⟩ hcat hkeys hne  hf
    rw [UploadsshKeys_run_test getKeys args w newKeys o1 e1 content e2 caterr hmkdir hcat hkeys,
      if_neg hne]
    exact UploadsshKeysWrite_run_fail_update _ args w [mkdirCmd args, catCmd args] err  hf
  · rintro newKeys content e2 caterr err ⟨o1, e1, hmkdir⟩ hcat hkeys hne h1 hf
    rw [UploadsshKeys_run_test getKeys args w newKeys o1 e1 content e2 caterr hmkdir hcat hkeys,
      if_neg hne]
    exact UploadsshKeysWrite_run_fail_chmodssh _ args w [mkdirCmd args, catCmd args] err h1 hf
  · rintro newKeys content e2 caterr err ⟨o1, e1, hmkdir⟩ hcat hkeys hne h1 h2 hf
    rw [UploadsshKeys_run_test getKeys args w newKeys o1 e1 content e2 caterr hmkdir hcat hkeys,
      if_neg hne]
    exact UploadsshKeysWrite_run_fail_chmodAkpath _ args w [mkdirCmd args, catCmd args] err h1 h2 hf
  · rintro newKeys content e2 caterr err ⟨o1, e1, hmkdir⟩ hcat hkeys hne h1 h2 h3 hf
    rw [UploadsshKeys_run_test getKeys args w newKeys o1 e1 content e2 caterr hmkdir hcat hkeys,
      if_neg hne]
    exact UploadsshKeysWrite_run_fail_chownssh _ args w [mkdirCmd args, catCmd args] err h1 h2 h3 hf
  · rintro newKeys content e2 caterr err ⟨o1, e1, hmkdir⟩ hcat hkeys hne h1 h2 h3 h4 hf
    rw [UploadsshKeys_run_test getKeys args w newKeys o1 e1 content e2 caterr hmkdir hcat hkeys,
      if_neg hne]
    exact UploadsshKeysWrite_run_fail_chownAkp _ args w [mkdirCmd args, catCmd args] err h1 h2 h3 h4 hf
  · intro pre err
    exact ⟨rfl, rfl⟩
  · simp only [List.pairwise_cons, List.mem_cons, List.mem_singleton, List.not_mem_nil,
      forall_eq_or_imp, forall_eq, List.Pairwise.nil, and_true, false_imp_iff, implies_true]
    refine ⟨⟨?_, ?_, ?_, ?_, ?_, ?_⟩, ⟨?_, ?_, ?_, ?_, ?_⟩, ⟨?_, ?_, ?_, ?_⟩, ⟨?_, ?_, ?_⟩,
      ⟨?_, ?_⟩, ?_⟩ <;>
    exact append_ne_of_not_prefix _ _ (by decide) (by decide)

end ssh

namespace ssh

open Go Model

/-- C10, an example: the `chmod 600` of the file is the first command to fail; the
run stops after it and the error names the permissions of `authorized_keys`. -/
theorem UploadsshKeys_first_failure_witness :
    (UploadsshKeys (fun _ => .ok ["b", "a"]) ⟨"u", "pw", "g", "uri"⟩).run
        hostChmodFileFails [] =
      (.ret (false, some (.wrap
          "error setting permissions to authorized_keys: Process exited with status 1"
          (.mk "Process exited with status 1"))),
        ["mkdir -p /home/u/.ssh",
         "cat /home/u/.ssh/authorized_keys",
         "echo pw | sudo -S bash -c 'echo \"a\nb\" > /home/u/.ssh/authorized_keys'",
         "echo pw | sudo -S bash -c 'chmod 700 /home/u/.ssh'",
         "echo pw | sudo -S bash -c 'chmod 600 /home/u/.ssh/authorized_keys'"]) :=
  (UploadsshKeys_first_failure (fun _ => .ok ["b", "a"]) ⟨"u", "pw", "g", "uri"⟩
    hostChmodFileFails).2.2.2.2.1 ["b", "a"] "x\n" "" none (.mk "Process exited with status 1")
    ⟨"", "", by decide⟩ (by decide) rfl (by decide) ⟨"", "", by decide⟩ ⟨"", "", by decide⟩
    ⟨"", "", by decide⟩

end ssh

namespace ssh

open Go Model

/-- Reading back what the overwrite wrote gives the keys again, when there is at
least one key and no key is empty or contains a newline. -/
theorem currentKeys_of_written (keys : List String) (hne : keys ≠ [])
    (hk : ∀ k ∈ keys, k ≠ "" ∧ '\n' ∉ k.data) :
    currentKeys (newFileContentOf keys ++ "\n") none = keys := by
  unfold currentKeys newFileContentOf
  rw [trim_join_eq keys hk]
  have hne2 : ∀ l ∈ keys.map String.data, l ≠ [] := by
    intro l hl
    obtain ⟨k, hkm, rfl⟩ := List.mem_map.1 hl
    intro h0
    exact (hk k hkm).1 (String.ext h0)
  have hnl : ∀ l ∈ keys.map String.data, '\n' ∉ l := by
    intro l hl
    obtain ⟨k, hkm, rfl⟩ := List.mem_map.1 hl
    exact (hk k hkm).2
  have hhead : ∀ c, (['\n'].intercalate (keys.map String.data)).head? = some c → c ≠ '\n' := by
    intro c hc
    obtain ⟨l, hl, hlc⟩ := intercalate_head _ _ hne2 c hc
    exact fun h0 => hnl l hl (h0 ▸ head?_mem l c hlc)
  have hlast : ∀ c, (['\n'].intercalate (keys.map String.data)).getLast? = some c →
      c ≠ '\n' := by
    intro c hc
    obtain ⟨l, hl, hlc⟩ := intercalate_getLast _ _ hne2 c hc
    exact fun h0 => hnl l hl (h0 ▸ List.mem_of_getLast?_eq_some hlc)
  have hJ : ['\n'].intercalate (keys.map String.data) ≠ [] := by
    cases keys with
    | nil => exact absurd rfl hne
    | cons a r =>
      have ha : a.data ≠ [] := hne2 a.data (by simp)
      cases r with
      | nil => simpa [intercalate_singleton] using ha
      | cons b r =>
        rw [List.map_cons, List.map_cons, intercalate_cons_cons, List.append_assoc]
        intro h0
        exact ha (List.append_eq_nil.1 h0).1
  have htrim : stringsTrim (stringsJoin keys "\n" ++ "\n") "\n" = stringsJoin keys "\n" := by
    unfold stringsTrim stringsJoin
    congr 1
    show List.rdropWhile _ (List.dropWhile _
      (['\n'].intercalate (keys.map String.data) ++ ['\n'])) = _
    generalize hJdef : ['\n'].intercalate (keys.map String.data) = J at hhead hlast hJ
    have h1 : List.dropWhile (fun c => decide (c ∈ ("\n" : String).data)) (J ++ ['\n'])
        = J ++ ['\n'] := by
      cases J with
      | nil => exact absurd rfl hJ
      | cons a r =>
        have : a ≠ '\n' := hhead a rfl
        rw [List.cons_append, List.dropWhile_cons_of_neg]
        simpa using this
    rw [h1, List.rdropWhile_concat_pos _ _ _ (by decide)]
    rw [List.rdropWhile_eq_self_iff]
    intro hl
    have := hlast _ (List.getLast?_eq_getLast J hl)
    simpa using this
  rw [htrim]
  unfold stringsSplit stringsJoin
  show List.map String.mk (List.splitOn '\n' (['\n'].intercalate (keys.map String.data))) = keys
  rw [List.splitOn_intercalate _ _ hnl (by simpa using hne)]
  rw [List.map_map]
  exact List.map_id keys

/-- Idempotence where it holds: with at least one desired key, none empty and none
containing a newline, a run against a host whose `cat` prints what the overwrite
wrote (the content and one newline) returns `(false, nil)` and runs nothing after
the `cat`. -/
theorem UploadsshKeys_second_run_unchanged (getKeys : String → Except GoError (List String))
    (args : UploadsshKeysArgs) (w : World) (newKeys : List String) (o1 e1 e2 : String)
    (hne : newKeys ≠ []) (hk : ∀ k ∈ newKeys, k ≠ "" ∧ '\n' ∉ k.data)
    (hmkdir : w [] (mkdirCmd args) = .ran o1 e1 none)
    (hcat : w [mkdirCmd args] (catCmd args) =
      .ran (newFileContentOf (finalKeysOf newKeys) ++ "\n") e2 none)
    (hkeys : getKeys args.KeysUri = .ok newKeys) :
    (UploadsshKeys getKeys args).run w [] =
      (.ret (false, none), [mkdirCmd args, catCmd args]) := by
  rw [UploadsshKeys_run_test getKeys args w newKeys o1 e1 _ e2 none hmkdir hcat hkeys]
  have hmem := mem_finalKeysOf newKeys
  have hfne : finalKeysOf newKeys ≠ [] := by
    cases hn : newKeys with
    | nil => exact absurd hn hne
    | cons a r =>
      intro h0
      have : a ∈ finalKeysOf (a :: r) := by
        rw [← hn]
        exact (hmem a).2 (by simp [hn])
      rw [h0] at this
      exact List.not_mem_nil _ this
  rw [if_pos (currentKeys_of_written _ hfne (fun k hkm => hk k ((hmem k).1 hkm)))]

/-- C1 fails for the empty desired list: on a host whose file holds the line `x`,
a first run with no desired key overwrites the file with the empty content and
returns `(true, nil)`; the second run, right after it on the same host, reads the
single newline that `echo ""` left, finds one (empty) line against zero keys,
returns `(true, nil)` again and runs all five elevated commands again. -/
theorem UploadsshKeys_empty_list_rewrites_again :
    (UploadsshKeys (fun _ => .ok []) ⟨"u", "pw", "g", "uri"⟩).run hostOverwrittenEmpty [] =
      (.ret (true, none),
        ["mkdir -p /home/u/.ssh",
         "cat /home/u/.ssh/authorized_keys",
         "echo pw | sudo -S bash -c 'echo \"\" > /home/u/.ssh/authorized_keys'",
         "echo pw | sudo -S bash -c 'chmod 700 /home/u/.ssh'",
         "echo pw | sudo -S bash -c 'chmod 600 /home/u/.ssh/authorized_keys'",
         "echo pw | sudo -S bash -c 'chown u:g /home/u/.ssh'",
         "echo pw | sudo -S bash -c 'chown u:g /home/u/.ssh/authorized_keys'"])
    ∧ hostOverwrittenEmpty
        ((UploadsshKeys (fun _ => .ok []) ⟨"u", "pw", "g", "uri"⟩).run
          hostOverwrittenEmpty []).2 "cat /home/u/.ssh/authorized_keys" =
        .ran (newFileContentOf (finalKeysOf []) ++ "\n") "" none
    ∧ currentKeys (newFileContentOf (finalKeysOf []) ++ "\n") none = [""]
    ∧ finalKeysOf [] = []
    ∧ (UploadsshKeys (fun _ => .ok []) ⟨"u", "pw", "g", "uri"⟩).run hostOverwrittenEmpty
        ((UploadsshKeys (fun _ => .ok []) ⟨"u", "pw", "g", "uri"⟩).run
          hostOverwrittenEmpty []).2 =
      (.ret (true, none),
        ["mkdir -p /home/u/.ssh",
         "cat /home/u/.ssh/authorized_keys",
         "echo pw | sudo -S bash -c 'echo \"\" > /home/u/.ssh/authorized_keys'",
         "echo pw | sudo -S bash -c 'chmod 700 /home/u/.ssh'",
         "echo pw | sudo -S bash -c 'chmod 600 /home/u/.ssh/authorized_keys'",
         "echo pw | sudo -S bash -c 'chown u:g /home/u/.ssh'",
         "echo pw | sudo -S bash -c 'chown u:g /home/u/.ssh/authorized_keys'",
         "mkdir -p /home/u/.ssh",
         "cat /home/u/.ssh/authorized_keys",
         "echo pw | sudo -S bash -c 'echo \"\" > /home/u/.ssh/authorized_keys'",
         "echo pw | sudo -S bash -c 'chmod 700 /home/u/.ssh'",
         "echo pw | sudo -S bash -c 'chmod 600 /home/u/.ssh/authorized_keys'",
         "echo pw | sudo -S bash -c 'chown u:g /home/u/.ssh'",
         "echo pw | sudo -S bash -c 'chown u:g /home/u/.ssh/authorized_keys'"]) := by
  refine ⟨by decide, by decide, by decide, by decide, by decide⟩

end ssh

namespace Go

/-- Strings with different first characters are different. -/
theorem ne_of_head_ne (a b : String) (x y : Char) (ha : a.data.head? = some x)
    (hb : b.data.head? = some y) (hxy : x ≠ y) : a ≠ b := by
  intro h
  rw [h, hb] at ha
  exact hxy (Option.some.inj ha).symm

end Go

namespace Model

open Go

/-- A sequence runs only commands of a list when both of its parts do. -/
theorem mem_trace_bind {α β : Type} (L : List String) (m : Remote α) (f : α → Remote β)
    (hm : ∀ w tr c, c ∈ (m.run w tr).2 → c ∈ tr ∨ c ∈ L)
    (hf : ∀ a w tr c, c ∈ ((f a).run w tr).2 → c ∈ tr ∨ c ∈ L)
    (w : World) (tr : Trace) (c : String) (hc : c ∈ ((m >>= f).run w tr).2) :
    c ∈ tr ∨ c ∈ L := by
  rw [run_bind] at hc
  have h1 := hm w tr c
  rcases hr : m.run w tr with ⟨r, tr1⟩
  rw [hr] at hc h1
  cases r with
  | ret a =>
    rcases hf a w tr1 c hc with h | h
    · exact h1 h
    · exact Or.inr h
  | panic e => exact h1 hc

theorem mem_trace_pure {α : Type} (L : List String) (a : α) (w : World) (tr : Trace)
    (c : String) (hc : c ∈ ((pure a : Remote α).run w tr).2) : c ∈ tr ∨ c ∈ L :=
  Or.inl hc

end Model

namespace ssh

open Go Model

theorem mem_trace_runCommand (L : List String) (cmd : String) (hL : cmd ∈ L) (w : World)
    (tr : Trace) (c : String) (hc : c ∈ ((runCommand cmd).run w tr).2) : c ∈ tr ∨ c ∈ L := by
  rw [run_runCommand_cases] at hc
  split at hc
  · exact Or.inl hc
  · exact Or.inl hc
  · exact Or.inl hc
  · rcases List.mem_append.1 hc with h | h
    · exact Or.inl h
    · exact Or.inr (List.mem_singleton.1 h ▸ hL)

/-- The wrapper is injective in the command, for a given password. -/
theorem basicSudoStdin_inj (c1 c2 p : String) (h : basicSudoStdin c1 p = basicSudoStdin c2 p) :
    c1 = c2 := by
  have hd := congrArg String.data h
  unfold basicSudoStdin at hd
  simp only [String.data_append, List.append_assoc] at hd
  have h1 := List.append_cancel_left (List.append_cancel_left (List.append_cancel_left hd))
  exact String.ext (List.append_cancel_right h1)

/-- An elevated command starts with the letter `e`. -/
theorem basicSudoStdin_head (c p : String) : (basicSudoStdin c p).data.head? = some 'e' := by
  unfold basicSudoStdin
  simp only [String.data_append]
  rfl

end ssh

namespace cmd

open Go Model

theorem run_cmdCommand_bind {β : Type} (c : String)
    (f : String × String × Option GoError → Remote β) (w : World) (tr : Trace) (o e : String)
    (s : Option GoError) (h : w tr c = .ran o e s) :
    (runCommand c >>= f).run w tr = (f (o, e, s)).run w (tr ++ [c]) :=
  ssh.run_runCommand_bind c f w tr o e s h

theorem mem_trace_cmdCommand (L : List String) (c0 : String) (hL : c0 ∈ L) (w : World)
    (tr : Trace) (c : String) (hc : c ∈ ((runCommand c0).run w tr).2) : c ∈ tr ∨ c ∈ L :=
  ssh.mem_trace_runCommand L c0 hL w tr c hc

theorem sudoStdinLogin_inj (c1 c2 : String) (settings : Layer1Settings)
    (h : sudoStdinLogin c1 settings = sudoStdinLogin c2 settings) : c1 = c2 :=
  ssh.basicSudoStdin_inj c1 c2 settings.loginPassword h

theorem sudoStdinLogin_head (c : String) (settings : Layer1Settings) :
    (sudoStdinLogin c settings).data.head? = some 'e' :=
  ssh.basicSudoStdin_head c settings.loginPassword

/-- The commands that the sudoers part of `createDeployerGroup` can run. -/
theorem mem_trace_createDeployerGroupSudoers (settings : Layer1Settings) (w : World)
    (tr : Trace) (c : String) (hc : c ∈ ((createDeployerGroupSudoers settings).run w tr).2) :
    c ∈ tr ∨ c ∈ [sudoStdinLogin "whoami" settings,
      sudoStdinLogin "cp /etc/sudoers sudoers" settings,
      sudoStdinLogin "cat /etc/sudoers" settings,
      sudoStdinLogin (sudoersCmd settings) settings] := by
  revert w tr c
  unfold createDeployerGroupSudoers
  refine mem_trace_bind _ _ _ (mem_trace_cmdCommand _ _ (by simp)) ?_
  rintro ⟨o, e, s⟩
  cases s with
  | some err => exact mem_trace_pure _ _
  | none =>
  refine mem_trace_bind _ _ _ (mem_trace_cmdCommand _ _ (by simp)) ?_
  rintro ⟨o, e, s⟩
  cases s with
  | some err => exact mem_trace_pure _ _
  | none =>
  refine mem_trace_bind _ _ _ (mem_trace_cmdCommand _ _ (by simp)) ?_
  rintro ⟨o, e, s⟩
  cases s with
  | some err => exact mem_trace_pure _ _
  | none =>
  simp only []
  split
  · exact mem_trace_pure _ _
  · refine mem_trace_bind _ _ _ (mem_trace_cmdCommand _ _ (by simp)) ?_
    rintro ⟨o, e, s⟩
    cases s with
    | some err => exact mem_trace_pure _ _
    | none => exact mem_trace_pure _ _

theorem groupadd_head (settings : Layer1Settings) :
    ("groupadd " ++ settings.deployerGroup).data.head? = some 'g' := by
  simp only [String.data_append]
  rfl

/-- The creation of the group is none of the commands of the sudoers part, and
not the probe. -/
theorem groupaddCmd_not_mem (settings : Layer1Settings) :
    groupaddCmd settings ∉ [groupProbeCmd settings, sudoStdinLogin "whoami" settings,
      sudoStdinLogin "cp /etc/sudoers sudoers" settings,
      sudoStdinLogin "cat /etc/sudoers" settings,
      sudoStdinLogin (sudoersCmd settings) settings] := by
  simp only [List.mem_cons, List.mem_singleton, List.not_mem_nil, or_false, not_or]
  unfold groupaddCmd
  refine ⟨?_, ?_, ?_, ?_, ?_⟩
  · refine ne_of_head_ne _ _ 'e' 'g' (sudoStdinLogin_head _ _) ?_ (by decide)
    unfold groupProbeCmd
    simp only [String.data_append]
    rfl
  · intro h
    exact ne_of_head_ne _ "whoami" 'g' 'w' (groupadd_head settings) rfl (by decide)
      (sudoStdinLogin_inj _ _ _ h)
  · intro h
    exact ne_of_head_ne _ "cp /etc/sudoers sudoers" 'g' 'c' (groupadd_head settings) rfl
      (by decide) (sudoStdinLogin_inj _ _ _ h)
  · intro h
    exact ne_of_head_ne _ "cat /etc/sudoers" 'g' 'c' (groupadd_head settings) rfl
      (by decide) (sudoStdinLogin_inj _ _ _ h)
  · intro h
    refine ne_of_head_ne _ _ 'g' 'e' (groupadd_head settings) ?_ (by decide)
      (sudoStdinLogin_inj _ _ _ h)
    unfold sudoersCmd
    simp only [String.data_append]
    rfl

/-- C6: a probe that succeeds keeps the apply commands of its step off the host.
In `createDeployerGroup` the `groupadd` is not run and the function goes on with
the sudoers part.  In `createDeployerUser` and in the three installers the probe
is the only command run, no error is returned, and the installers report
`installed = false`. -/
theorem probe_success_skips_apply (w : World) :
    (∀ settings, Succeeds w [] (groupProbeCmd settings) →
        groupaddCmd settings ∉ ((createDeployerGroup settings).run w []).2
        ∧ (createDeployerGroup settings).run w [] =
            (createDeployerGroupSudoers settings).run w [groupProbeCmd settings])
    ∧ (∀ settings tr, Succeeds w tr ("id " ++ settings.deployerUser) →
        (createDeployerUser settings).run w tr =
          (.ret none, tr ++ ["id " ++ settings.deployerUser]))
    ∧ (∀ args tr, Succeeds w tr "which fish" →
        (InstallFish args).run w tr = (.ret (false, none), tr ++ ["which fish"]))
    ∧ (∀ args tr, Succeeds w tr "which docker" →
        (InstallDocker args).run w tr = (.ret (false, none), tr ++ ["which docker"]))
    ∧ (∀ args tr, Succeeds w tr "which docker-compose" →
        (InstallDockerCompose args).run w tr =
          (.ret (false, none), tr ++ ["which docker-compose"])) := by
  refine ⟨?_, ?_, ?_, ?_, ?_⟩
  · rintro settings ⟨o, e, h⟩
    have hrun : (createDeployerGroup settings).run w [] =
        (createDeployerGroupSudoers settings).run w [groupProbeCmd settings] := by
      unfold createDeployerGroup
      rw [run_cmdCommand_bind _ _ _ _ _ _ _ h]
      simp
    refine ⟨?_, hrun⟩
    rw [hrun]
    intro hmem
    have hnot := groupaddCmd_not_mem settings
    rcases mem_trace_createDeployerGroupSudoers settings w _ _ hmem with h1 | h1
    · exact hnot (by
        rw [List.mem_singleton] at h1
        rw [h1]
        exact List.mem_cons_self _ _)
    · exact hnot (List.mem_cons_of_mem _ h1)
  · rintro settings tr ⟨o, e, h⟩
    unfold createDeployerUser
    rw [run_cmdCommand_bind _ _ _ _ _ _ _ h]
    simp
  · rintro args tr ⟨o, e, h⟩
    unfold InstallFish
    rw [run_cmdCommand_bind _ _ _ _ _ _ _ h]
    simp
  · rintro args tr ⟨o, e, h⟩
    unfold InstallDocker
    rw [run_cmdCommand_bind _ _ _ _ _ _ _ h]
    simp
  · rintro args tr ⟨o, e, h⟩
    unfold InstallDockerCompose
    rw [run_cmdCommand_bind _ _ _ _ _ _ _ h]
    simp

end cmd

namespace Go

/-- Dropping leading cut characters keeps an occurrence of a text that does not
start with a cut character. -/
theorem dropWhile_keeps_infix {α : Type} (p : α → Bool) (x : α) (E a b : List α)
    (hx : p x = false) :
    ∃ a2, (a ++ (x :: E) ++ b).dropWhile p = a2 ++ (x :: E) ++ b := by
  induction a with
  | nil =>
    refine ⟨[], ?_⟩
    simp [List.dropWhile_cons, hx]
  | cons y a ih =>
    by_cases hy : p y = true
    · obtain ⟨a2, h2⟩ := ih
      refine ⟨a2, ?_⟩
      simp only [List.cons_append, List.dropWhile_cons, hy, if_true]
      simpa using h2
    · refine ⟨y :: a, ?_⟩
      simp [List.dropWhile_cons, hy]

/-- Trimming keeps the occurrences of a text that neither starts nor ends with a
character of the cut set, and adds none. -/
theorem isInfix_trim_iff {α : Type} (p : α → Bool) (E l : List α)
    (hh : ∀ c, E.head? = some c → p c = false)
    (ht : ∀ c, E.getLast? = some c → p c = false) (hne : E ≠ []) :
    E <:+: (l.dropWhile p).rdropWhile p ↔ E <:+: l := by
  constructor
  · intro h
    exact h.trans ((List.rdropWhile_prefix p _).isInfix.trans
      (List.dropWhile_suffix p).isInfix)
  · rintro ⟨a, b, hab⟩
    obtain ⟨x, E1, rfl⟩ := List.exists_cons_of_ne_nil hne
    have hx : p x = false := hh x rfl
    obtain ⟨a2, h2⟩ := dropWhile_keeps_infix p x E1 a b hx
    rw [← hab, h2]
    -- now the right end
    have hrne : (x :: E1).reverse ≠ [] := by simp
    obtain ⟨y, R, hR⟩ := List.exists_cons_of_ne_nil hrne
    have hy : p y = false := by
      apply ht y
      rw [List.getLast?_eq_head?_reverse, hR]
      rfl
    obtain ⟨b2, h3⟩ := dropWhile_keeps_infix p y R b.reverse a2.reverse hy
    have hrev : (a2 ++ x :: E1 ++ b).reverse = b.reverse ++ (y :: R) ++ a2.reverse := by
      simp only [List.reverse_append, List.append_assoc]
      rw [hR]
    unfold List.rdropWhile
    rw [hrev, h3]
    refine ⟨a2, b2.reverse, ?_⟩
    simp only [List.reverse_append, List.reverse_reverse, List.append_assoc]
    rw [← hR]
    simp

end Go

namespace cmd

open Go Model

/-- C6, an example: on a host where every probe succeeds, each of the five steps
runs its probe and none of its apply commands. -/
theorem probe_success_skips_apply_witness :
    "echo raspberry | sudo -S bash -c 'groupadd deployers'" ∉
        ((createDeployerGroup exampleSettings).run hostAllOk []).2
    ∧ (createDeployerUser exampleSettings).run hostAllOk [] = (.ret none, ["id deployers"])
    ∧ (InstallFish ⟨"deployers", "rpi", 22⟩).run hostAllOk [] =
        (.ret (false, none), ["which fish"])
    ∧ (InstallDocker ⟨"deployers", "rpi", 22⟩).run hostAllOk [] =
        (.ret (false, none), ["which docker"])
    ∧ (InstallDockerCompose ⟨"deployers", "rpi", 22⟩).run hostAllOk [] =
        (.ret (false, none), ["which docker-compose"]) :=
  ⟨((probe_success_skips_apply hostAllOk).1 exampleSettings ⟨"", "", rfl⟩).1,
    (probe_success_skips_apply hostAllOk).2.1 exampleSettings [] ⟨"", "", rfl⟩,
    (probe_success_skips_apply hostAllOk).2.2.1 ⟨"deployers", "rpi", 22⟩ [] ⟨"", "", rfl⟩,
    (probe_success_skips_apply hostAllOk).2.2.2.1 ⟨"deployers", "rpi", 22⟩ [] ⟨"", "", rfl⟩,
    (probe_success_skips_apply hostAllOk).2.2.2.2 ⟨"deployers", "rpi", 22⟩ [] ⟨"", "", rfl⟩⟩

end cmd

namespace cmd

open Go Model

/-- The rule ends with the letter `L` and starts like the name of the group, or
with a blank when the name is empty. -/
theorem extraSudoer_ends (settings : Layer1Settings) (c : Char)
    (h : (extraSudoer settings).data.getLast? = some c) : c = 'L' := by
  unfold extraSudoer at h
  rw [String.data_append, List.getLast?_append_of_ne_nil _ (by decide)] at h
  exact (Option.some.inj h).symm

theorem extraSudoer_starts (settings : Layer1Settings) (c : Char)
    (hg : ∀ c, settings.deployerGroup.data.head? = some c → c ≠ '\n' ∧ c ≠ '\r')
    (h : (extraSudoer settings).data.head? = some c) : c ≠ '\n' ∧ c ≠ '\r' := by
  unfold extraSudoer at h
  rw [String.data_append] at h
  cases hd : settings.deployerGroup.data with
  | nil =>
    rw [hd] at h
    have : c = ' ' := (Option.some.inj h).symm
    subst this
    exact ⟨by decide, by decide⟩
  | cons a r =>
    rw [hd] at h
    have : c = a := (Option.some.inj h).symm
    subst this
    exact hg c (by rw [hd]; rfl)

/-- The test of `createDeployerGroup` on the trimmed output of the `cat` is the
test on the output itself, for a group whose name does not start with a newline
or a carriage return. -/
theorem contains_trim_eq (settings : Layer1Settings) (content : String)
    (hg : ∀ c, settings.deployerGroup.data.head? = some c → c ≠ '\n' ∧ c ≠ '\r') :
    stringsContains (stringsTrim content "\n\r") (extraSudoer settings) =
      stringsContains content (extraSudoer settings) := by
  unfold stringsContains stringsTrim
  have hcut : ∀ c : Char, decide (c ∈ ("\n\r" : String).data) = false ↔ (c ≠ '\n' ∧ c ≠ '\r') := by
    intro c
    have : ("\n\r" : String).data = ['\n', '\r'] := rfl
    rw [this]
    simp
  have hne : (extraSudoer settings).data ≠ [] := by
    unfold extraSudoer
    rw [String.data_append]
    intro h0
    exact absurd (List.append_eq_nil.1 h0).2 (by decide)
  have h := isInfix_trim_iff (fun c => decide (c ∈ ("\n\r" : String).data))
    (extraSudoer settings).data content.data
    (fun c hc => (hcut c).2 (extraSudoer_starts settings c hg hc))
    (fun c hc => (hcut c).2 (by
      rw [extraSudoer_ends settings c hc]
      exact ⟨by decide, by decide⟩))
    hne
  exact decide_eq_decide.2 h

/-- The append of the rule is none of the other commands of `createDeployerGroup`. -/
theorem sudoersCmd_not_mem (settings : Layer1Settings) :
    sudoStdinLogin (sudoersCmd settings) settings ∉
      [groupProbeCmd settings, groupaddCmd settings, sudoStdinLogin "whoami" settings,
        sudoStdinLogin "cp /etc/sudoers sudoers" settings,
        sudoStdinLogin "cat /etc/sudoers" settings] := by
  have hhead : (sudoersCmd settings).data.head? = some 'e' := by
    unfold sudoersCmd
    simp only [String.data_append]
    rfl
  simp only [List.mem_cons, List.mem_singleton, List.not_mem_nil, or_false, not_or]
  refine ⟨?_, ?_, ?_, ?_, ?_⟩
  · refine ne_of_head_ne _ _ 'e' 'g' (sudoStdinLogin_head _ _) ?_ (by decide)
    unfold groupProbeCmd
    simp only [String.data_append]
    rfl
  · intro h
    unfold groupaddCmd at h
    exact ne_of_head_ne _ _ 'e' 'g' hhead (groupadd_head settings) (by decide)
      (sudoStdinLogin_inj _ _ _ h)
  · intro h
    exact ne_of_head_ne _ "whoami" 'e' 'w' hhead rfl (by decide) (sudoStdinLogin_inj _ _ _ h)
  · intro h
    exact ne_of_head_ne _ "cp /etc/sudoers sudoers" 'e' 'c' hhead rfl (by decide)
      (sudoStdinLogin_inj _ _ _ h)
  · intro h
    exact ne_of_head_ne _ "cat /etc/sudoers" 'e' 'c' hhead rfl (by decide)
      (sudoStdinLogin_inj _ _ _ h)

/-- The run of `createDeployerGroup` once the group check is over, the sudo check
and the copy have succeeded and the `cat` has printed `content`. -/
theorem createDeployerGroup_run_sudoers (settings : Layer1Settings) (w : World) (tr0 : Trace)
    (content e3 : String)
    (hstart : (Succeeds w [] (groupProbeCmd settings) ∧ tr0 = [groupProbeCmd settings]) ∨
      (∃ err, FailsWith w [] (groupProbeCmd settings) err ∧
        Succeeds w [groupProbeCmd settings] (groupaddCmd settings) ∧
        tr0 = [groupProbeCmd settings, groupaddCmd settings]))
    (hwhoami : Succeeds w tr0 (sudoStdinLogin "whoami" settings))
    (hcp : Succeeds w (tr0 ++ [sudoStdinLogin "whoami" settings])
      (sudoStdinLogin "cp /etc/sudoers sudoers" settings))
    (hcat : w (tr0 ++ [sudoStdinLogin "whoami" settings,
        sudoStdinLogin "cp /etc/sudoers sudoers" settings])
      (sudoStdinLogin "cat /etc/sudoers" settings) = .ran content e3 none) :
    (createDeployerGroup settings).run w [] =
      if stringsContains (stringsTrim content "\n\r") (extraSudoer settings) = true then
        (.ret none, tr0 ++ [sudoStdinLogin "whoami" settings,
          sudoStdinLogin "cp /etc/sudoers sudoers" settings,
          sudoStdinLogin "cat /etc/sudoers" settings])
      else
        (do
          let (_, _, err) ← runCommand (sudoStdinLogin (sudoersCmd settings) settings)
          match err with
          | some err => pure (some err)
          | none => pure none : Remote (Option GoError)).run w
          (tr0 ++ [sudoStdinLogin "whoami" settings,
            sudoStdinLogin "cp /etc/sudoers sudoers" settings,
            sudoStdinLogin "cat /etc/sudoers" settings]) := by
  have hfirst : (createDeployerGroup settings).run w [] =
      (createDeployerGroupSudoers settings).run w tr0 := by
    unfold createDeployerGroup
    rcases hstart with ⟨⟨o, e, h⟩, rfl⟩ | ⟨err, ⟨o, e, h⟩, ⟨o2, e2, h2⟩, rfl⟩
    · rw [run_cmdCommand_bind _ _ _ _ _ _ _ h]
      simp
    · rw [run_cmdCommand_bind _ _ _ _ _ _ _ h]
      simp only [List.nil_append]
      rw [run_cmdCommand_bind _ _ _ _ _ _ _ h2]
      simp
  rw [hfirst]
  obtain ⟨o1, e1, hwhoami⟩ := hwhoami
  obtain ⟨o2, e2, hcp⟩ := hcp
  unfold createDeployerGroupSudoers
  rw [run_cmdCommand_bind _ _ _ _ _ _ _ hwhoami]
  simp only []
  rw [run_cmdCommand_bind _ _ _ _ _ _ _ hcp]
  simp only [List.append_assoc, List.cons_append, List.nil_append]
  rw [run_cmdCommand_bind _ _ _ _ _ _ _ hcat]
  simp only [List.append_assoc, List.cons_append, List.nil_append]
  split
  · simp
  · rfl

end cmd
namespace cmd

open Go Model

/-- Trimming a list whose first element is cut makes it shorter. -/
theorem trimmed_shorter {α : Type} (p : α → Bool) (a : α) (l : List α) (hp : p a = true) :
    (((a :: l).dropWhile p).rdropWhile p).length < (a :: l).length := by
  rw [List.dropWhile_cons_of_pos hp]
  have h1 := (List.rdropWhile_prefix p (l.dropWhile p)).length_le
  have h2 := (List.dropWhile_suffix p : l.dropWhile p <:+ l).length_le
  rw [List.length_cons]
  omega

/-- A rule that starts with a newline or a carriage return is found in a text that
is the rule itself, and not in that text once trimmed. -/
theorem trimmed_rule_lacks_rule (settings : Layer1Settings)
    (hg : ∃ c, settings.deployerGroup.data.head? = some c ∧ (c = '\n' ∨ c = '\r')) :
    stringsContains (extraSudoer settings) (extraSudoer settings) = true
    ∧ stringsContains (stringsTrim (extraSudoer settings) "\n\r") (extraSudoer settings) =
        false := by
  constructor
  · unfold stringsContains
    exact decide_eq_true (List.infix_refl _)
  · unfold stringsContains stringsTrim
    apply decide_eq_false
    intro hinf
    have hlen := hinf.length_le
    obtain ⟨c, hc, hcut⟩ := hg
    have hdata : (extraSudoer settings).data =
        settings.deployerGroup.data ++ (" ALL=(ALL) NOPASSWD: ALL" : String).data := by
      unfold extraSudoer
      rw [String.data_append]
    cases hd : settings.deployerGroup.data with
    | nil => rw [hd] at hc; simp at hc
    | cons a r =>
      rw [hd] at hc
      have hac : a = c := by simpa using hc
      subst hac
      have hp : (fun c => decide (c ∈ ("\n\r" : String).data)) a = true := by
        have : ("\n\r" : String).data = ['\n', '\r'] := rfl
        rw [this]
        rcases hcut with h | h <;> simp [h]
      have key := trimmed_shorter (fun c => decide (c ∈ ("\n\r" : String).data)) a
        (r ++ (" ALL=(ALL) NOPASSWD: ALL" : String).data) hp
      rw [hdata, hd, List.cons_append] at hlen
      exact absurd hlen (not_le.2 key)

/-- C7, as the code has it: in `createDeployerGroup`, once the sudo check, the copy
of the sudoers file and the `cat` have succeeded, the command
`echo "\n<group> ALL=(ALL) NOPASSWD: ALL\n" >> /etc/sudoers` is run, elevated,
exactly when the output of the `cat`, trimmed of newlines and carriage returns at
both ends, does not contain the text `<group> ALL=(ALL) NOPASSWD: ALL`.  With the
text present the run ends without error after the `cat` and the append is not in
the trace; with the text absent the append is the next command and its error is
the result.  For a group whose name does not start with a newline or a carriage
return the test on the trimmed output is the test on the output itself, so a
sudoers file that ends with the text appended by an earlier run gets no second
copy; for a group whose name starts with one of them the two tests differ on the
text of the rule itself. -/
theorem createDeployerGroup_appends_iff_absent (settings : Layer1Settings) (w : World)
    (tr0 : Trace) (content e3 : String)
    (hstart : (Succeeds w [] (groupProbeCmd settings) ∧ tr0 = [groupProbeCmd settings]) ∨
      (∃ err, FailsWith w [] (groupProbeCmd settings) err ∧
        Succeeds w [groupProbeCmd settings] (groupaddCmd settings) ∧
        tr0 = [groupProbeCmd settings, groupaddCmd settings]))
    (hwhoami : Succeeds w tr0 (sudoStdinLogin "whoami" settings))
    (hcp : Succeeds w (tr0 ++ [sudoStdinLogin "whoami" settings])
      (sudoStdinLogin "cp /etc/sudoers sudoers" settings))
    (hcat : w (tr0 ++ [sudoStdinLogin "whoami" settings,
        sudoStdinLogin "cp /etc/sudoers sudoers" settings])
      (sudoStdinLogin "cat /etc/sudoers" settings) = .ran content e3 none) :
    extraSudoer settings = settings.deployerGroup ++ " ALL=(ALL) NOPASSWD: ALL"
    ∧ [sudoStdinLogin "whoami" settings,
        sudoStdinLogin "cp /etc/sudoers sudoers" settings,
        sudoStdinLogin "cat /etc/sudoers" settings,
        sudoStdinLogin (sudoersCmd settings) settings] =
      ["echo " ++ settings.loginPassword ++ " | sudo -S bash -c '" ++ "whoami" ++ "'",
        "echo " ++ settings.loginPassword ++ " | sudo -S bash -c '" ++
          "cp /etc/sudoers sudoers" ++ "'",
        "echo " ++ settings.loginPassword ++ " | sudo -S bash -c '" ++
          "cat /etc/sudoers" ++ "'",
        "echo " ++ settings.loginPassword ++ " | sudo -S bash -c '" ++
          ("echo \"\n" ++ (settings.deployerGroup ++ " ALL=(ALL) NOPASSWD: ALL") ++
            "\n\" >> /etc/sudoers") ++ "'"]
    ∧ (stringsContains (stringsTrim content "\n\r")
          (settings.deployerGroup ++ " ALL=(ALL) NOPASSWD: ALL") = true →
        (createDeployerGroup settings).run w [] =
          (.ret none, tr0 ++ [sudoStdinLogin "whoami" settings,
            sudoStdinLogin "cp /etc/sudoers sudoers" settings,
            sudoStdinLogin "cat /etc/sudoers" settings])
        ∧ sudoStdinLogin (sudoersCmd settings) settings ∉
            ((createDeployerGroup settings).run w []).2)
    ∧ (stringsContains (stringsTrim content "\n\r")
          (settings.deployerGroup ++ " ALL=(ALL) NOPASSWD: ALL") = false →
        ∀ o e s, w (tr0 ++ [sudoStdinLogin "whoami" settings,
            sudoStdinLogin "cp /etc/sudoers sudoers" settings,
            sudoStdinLogin "cat /etc/sudoers" settings])
          (sudoStdinLogin (sudoersCmd settings) settings) = .ran o e s →
        (createDeployerGroup settings).run w [] =
          (.ret s, tr0 ++ [sudoStdinLogin "whoami" settings,
            sudoStdinLogin "cp /etc/sudoers sudoers" settings,
            sudoStdinLogin "cat /etc/sudoers" settings,
            sudoStdinLogin (sudoersCmd settings) settings]))
    ∧ (∀ o e s, w (tr0 ++ [sudoStdinLogin "whoami" settings,
            sudoStdinLogin "cp /etc/sudoers sudoers" settings,
            sudoStdinLogin "cat /etc/sudoers" settings])
          (sudoStdinLogin (sudoersCmd settings) settings) = .ran o e s →
        (sudoStdinLogin (sudoersCmd settings) settings ∈
            ((createDeployerGroup settings).run w []).2 ↔
          stringsContains (stringsTrim content "\n\r")
            (settings.deployerGroup ++ " ALL=(ALL) NOPASSWD: ALL") = false))
    ∧ ((∀ c, settings.deployerGroup.data.head? = some c → c ≠ '\n' ∧ c ≠ '\r') →
        stringsContains (stringsTrim content "\n\r")
            (settings.deployerGroup ++ " ALL=(ALL) NOPASSWD: ALL") =
          stringsContains content (settings.deployerGroup ++ " ALL=(ALL) NOPASSWD: ALL"))
    ∧ ((∃ c, settings.deployerGroup.data.head? = some c ∧ (c = '\n' ∨ c = '\r')) →
        stringsContains (settings.deployerGroup ++ " ALL=(ALL) NOPASSWD: ALL")
            (settings.deployerGroup ++ " ALL=(ALL) NOPASSWD: ALL") = true
        ∧ stringsContains
            (stringsTrim (settings.deployerGroup ++ " ALL=(ALL) NOPASSWD: ALL") "\n\r")
            (settings.deployerGroup ++ " ALL=(ALL) NOPASSWD: ALL") = false)
    ∧ ((∀ c, settings.deployerGroup.data.head? = some c → c ≠ '\n' ∧ c ≠ '\r') →
        (∃ old, content = old ++ "\n" ++
          (settings.deployerGroup ++ " ALL=(ALL) NOPASSWD: ALL") ++ "\n" ++ "\n") →
        (createDeployerGroup settings).run w [] =
          (.ret none, tr0 ++ [sudoStdinLogin "whoami" settings,
            sudoStdinLogin "cp /etc/sudoers sudoers" settings,
            sudoStdinLogin "cat /etc/sudoers" settings])) := by
  have hrun := createDeployerGroup_run_sudoers settings w tr0 content e3 hstart hwhoami hcp hcat
  have hrule : settings.deployerGroup ++ " ALL=(ALL) NOPASSWD: ALL" = extraSudoer settings := rfl
  rw [hrule]
  have hA : stringsContains (stringsTrim content "\n\r") (extraSudoer settings) = true →
      (createDeployerGroup settings).run w [] =
        (.ret none, tr0 ++ [sudoStdinLogin "whoami" settings,
          sudoStdinLogin "cp /etc/sudoers sudoers" settings,
          sudoStdinLogin "cat /etc/sudoers" settings]) := by
    intro hc
    rw [hrun, if_pos hc]
  have hnotmem : stringsContains (stringsTrim content "\n\r") (extraSudoer settings) = true →
      sudoStdinLogin (sudoersCmd settings) settings ∉
        ((createDeployerGroup settings).run w []).2 := by
    intro hc
    rw [hA hc]
    have hnot := sudoersCmd_not_mem settings
    simp only [List.mem_cons, List.mem_singleton, List.not_mem_nil, or_false, not_or] at hnot
    rcases hstart with ⟨_, rfl⟩ | ⟨err, _, _, rfl⟩
    · simp only [List.cons_append, List.nil_append, List.mem_cons, List.mem_singleton,
        List.not_mem_nil, or_false, not_or]
      exact ⟨hnot.1, hnot.2.2.1, hnot.2.2.2.1, hnot.2.2.2.2⟩
    · simp only [List.cons_append, List.nil_append, List.mem_cons, List.mem_singleton,
        List.not_mem_nil, or_false, not_or]
      exact ⟨hnot.1, hnot.2.1, hnot.2.2.1, hnot.2.2.2.1, hnot.2.2.2.2⟩
  have hB : stringsContains (stringsTrim content "\n\r") (extraSudoer settings) = false →
      ∀ o e s, w (tr0 ++ [sudoStdinLogin "whoami" settings,
          sudoStdinLogin "cp /etc/sudoers sudoers" settings,
          sudoStdinLogin "cat /etc/sudoers" settings])
        (sudoStdinLogin (sudoersCmd settings) settings) = .ran o e s →
      (createDeployerGroup settings).run w [] =
        (.ret s, tr0 ++ [sudoStdinLogin "whoami" settings,
          sudoStdinLogin "cp /etc/sudoers sudoers" settings,
          sudoStdinLogin "cat /etc/sudoers" settings,
          sudoStdinLogin (sudoersCmd settings) settings]) := by
    intro hc o e s hw
    rw [hrun, if_neg (by simp [hc])]
    rw [run_cmdCommand_bind _ _ _ _ _ _ _ hw]
    cases s <;> simp
  refine ⟨rfl, rfl, fun hc => ⟨hA hc, hnotmem hc⟩, hB, ?_, ?_, ?_, ?_⟩
  · intro o e s hw
    constructor
    · intro hmem
      cases hc : stringsContains (stringsTrim content "\n\r") (extraSudoer settings) with
      | false => rfl
      | true => exact absurd hmem (hnotmem hc)
    · intro hc
      rw [hB hc o e s hw]
      simp
  · intro hg
    exact contains_trim_eq settings content hg
  · intro hg
    exact trimmed_rule_lacks_rule settings hg
  · rintro hg ⟨old, rfl⟩
    apply hA
    rw [contains_trim_eq settings _ hg]
    unfold stringsContains
    simp only [String.data_append, decide_eq_true_eq]
    exact ⟨old.data ++ ("\n" : String).data, ("\n" : String).data ++ ("\n" : String).data,
      by simp only [List.append_assoc]⟩

/-- C7, two examples.  On a host whose `/etc/sudoers` already holds
`deployers ALL=(ALL) NOPASSWD: ALL` (the example of the spec) the step runs the
group probe, the sudo check, the copy and the `cat`, appends nothing and returns no
error.  On a host whose `/etc/sudoers` is empty the append is the next command. -/
theorem createDeployerGroup_appends_iff_absent_witness :
    ((createDeployerGroup exampleSettings).run hostWithRule [] =
      (.ret none,
        ["grep -q deployers /etc/group",
         "echo raspberry | sudo -S bash -c 'whoami'",
         "echo raspberry | sudo -S bash -c 'cp /etc/sudoers sudoers'",
         "echo raspberry | sudo -S bash -c 'cat /etc/sudoers'"])
      ∧ "echo raspberry | sudo -S bash -c 'echo \"\ndeployers ALL=(ALL) NOPASSWD: ALL\n\" >> /etc/sudoers'"
        ∉ ((createDeployerGroup exampleSettings).run hostWithRule []).2)
    ∧ (createDeployerGroup exampleSettings).run hostAllOk [] =
      (.ret none,
        ["grep -q deployers /etc/group",
         "echo raspberry | sudo -S bash -c 'whoami'",
         "echo raspberry | sudo -S bash -c 'cp /etc/sudoers sudoers'",
         "echo raspberry | sudo -S bash -c 'cat /etc/sudoers'",
         "echo raspberry | sudo -S bash -c 'echo \"\ndeployers ALL=(ALL) NOPASSWD: ALL\n\" >> /etc/sudoers'"]) :=
  ⟨(createDeployerGroup_appends_iff_absent exampleSettings hostWithRule
      ["grep -q deployers /etc/group"]
      "root ALL=(ALL:ALL) ALL\n\ndeployers ALL=(ALL) NOPASSWD: ALL\n\n" ""
      (Or.inl ⟨⟨"", "", by decide⟩, by decide⟩) ⟨"", "", by decide⟩ ⟨"", "", by decide⟩
      (by decide)).2.2.1 (by decide),
    (createDeployerGroup_appends_iff_absent exampleSettings hostAllOk
      ["grep -q deployers /etc/group"] "" ""
      (Or.inl ⟨⟨"", "", by decide⟩, by decide⟩) ⟨"", "", by decide⟩ ⟨"", "", by decide⟩
      (by decide)).2.2.2.1 (by decide) "" "" none (by decide)⟩

/-- C7 fails for a group whose name starts with a newline: the sudoers file holds
the rule of the group, newline included, at its very start; the function trims the
text before it looks for the rule, does not find it, and appends the rule again. -/
theorem createDeployerGroup_appends_despite_rule :
    stringsContains "\nx ALL=(ALL) NOPASSWD: ALL\n" (extraSudoer newlineGroupSettings) = true
    ∧ (createDeployerGroup newlineGroupSettings).run hostRuleAtStart [] =
      (.ret none,
        ["grep -q \nx /etc/group",
         "echo raspberry | sudo -S bash -c 'whoami'",
         "echo raspberry | sudo -S bash -c 'cp /etc/sudoers sudoers'",
         "echo raspberry | sudo -S bash -c 'cat /etc/sudoers'",
         "echo raspberry | sudo -S bash -c 'echo \"\n\nx ALL=(ALL) NOPASSWD: ALL\n\" >> /etc/sudoers'"]) := by
  refine ⟨by decide, by decide⟩

end cmd

namespace cmd

open Go Model

/-- The defect behind C5, in general: when the group and user steps succeed, a root
password is given and its `chpasswd` fails, `setupDeployer` returns `nil` right
after that command, whatever the later steps would do. -/
theorem setupDeployer_drops_root_password_error (ext : Collaborators)
    (settings : Layer1Settings) (w : World) (tr1 tr2 : Trace) (err : GoError)
    (hroot : settings.rootPassword.length > 0)
    (hgroup : (createDeployerGroup settings).run w [] = (.ret none, tr1))
    (huser : (createDeployerUser settings).run w tr1 = (.ret none, tr2))
    (hfail : FailsWith w tr2
      (sudoStdinLogin ("echo root:" ++ settings.rootPassword ++ " | chpasswd") settings) err) :
    (setRootPassword settings).run w tr2 =
      (.ret (some err),
        tr2 ++ [sudoStdinLogin ("echo root:" ++ settings.rootPassword ++ " | chpasswd") settings])
    ∧ (setupDeployer ext settings).run w [] =
      (.ret none,
        tr2 ++ [sudoStdinLogin ("echo root:" ++ settings.rootPassword ++ " | chpasswd")
          settings]) := by
  obtain ⟨o, e, hfail⟩ := hfail
  have hset : (setRootPassword settings).run w tr2 =
      (.ret (some err),
        tr2 ++ [sudoStdinLogin ("echo root:" ++ settings.rootPassword ++ " | chpasswd")
          settings]) := by
    unfold setRootPassword
    rw [run_cmdCommand_bind _ _ _ _ _ _ _ hfail]
    simp
  refine ⟨hset, ?_⟩
  unfold setupDeployer
  rw [run_bind_ret _ _ _ _ _ _ hgroup]
  simp only []
  rw [run_bind_ret _ _ _ _ _ _ huser]
  simp only [hroot, if_true]
  rw [run_bind_ret _ _ _ _ _ _ hset]
  simp

/-- C5 fails at `setRootPassword`: on a host where only the `chpasswd` of root
fails, that step returns its error, but `setupDeployer` and `layer1` return `nil`;
the keys, the sshd configuration, the hostname and the login user are left
untouched and the layer reports success. -/
theorem layer1_succeeds_when_root_password_fails :
    (setRootPassword exampleSettings).run hostRootPasswordFails [] =
      (.ret (some (.mk "Process exited with status 1")),
        ["echo raspberry | sudo -S bash -c 'echo root:toor | chpasswd'"])
    ∧ (setupDeployer (exampleCollaborators (.ok hostRootPasswordFails)) exampleSettings).run
        hostRootPasswordFails [] =
      (.ret none,
        ["grep -q deployers /etc/group",
         "echo raspberry | sudo -S bash -c 'whoami'",
         "echo raspberry | sudo -S bash -c 'cp /etc/sudoers sudoers'",
         "echo raspberry | sudo -S bash -c 'cat /etc/sudoers'",
         "echo raspberry | sudo -S bash -c 'echo \"\ndeployers ALL=(ALL) NOPASSWD: ALL\n\" >> /etc/sudoers'",
         "id deployers",
         "echo raspberry | sudo -S bash -c 'echo root:toor | chpasswd'"])
    ∧ layer1 (exampleCollaborators (.ok hostRootPasswordFails)) exampleArgs =
      (.ret none,
        ["grep -q deployers /etc/group",
         "echo raspberry | sudo -S bash -c 'whoami'",
         "echo raspberry | sudo -S bash -c 'cp /etc/sudoers sudoers'",
         "echo raspberry | sudo -S bash -c 'cat /etc/sudoers'",
         "echo raspberry | sudo -S bash -c 'echo \"\ndeployers ALL=(ALL) NOPASSWD: ALL\n\" >> /etc/sudoers'",
         "id deployers",
         "echo raspberry | sudo -S bash -c 'echo root:toor | chpasswd'"]) := by
  refine ⟨by decide, by decide, by decide⟩

/-- C8: when the S3 path parses and the dial fails, `layer1` runs nothing on any
host, and it returns `nil` exactly when the message of the error contains
"no supported methods remain"; otherwise it returns the error of the dial. -/
theorem layer1_dial_failure (ext : Collaborators) (args : Layer1Args)
    (s3Region s3Bucket s3File : String) (err : GoError)
    (hparse : ext.splitAwsPath args.s3Path = .ok (s3Region, s3Bucket, s3File))
    (hdial : ext.dial (args.host ++ ":" ++ toString args.port) args.loginUser
      args.loginPassword = .error err) :
    (layer1 ext args).2 = []
    ∧ ((layer1 ext args).1 = .ret none ↔
        stringsContains err.Error "no supported methods remain" = true)
    ∧ (stringsContains err.Error "no supported methods remain" = false →
        (layer1 ext args).1 = .ret (some err)) := by
  unfold layer1
  rw [hparse]
  simp only []
  rw [hdial]
  simp only []
  by_cases hc : stringsContains err.Error "no supported methods remain" = true
  · simp [hc]
  · simp [hc]

set_option maxRecDepth 100000 in
/-- C8, an example: the host refuses the password of the login user with the error
of a provisioned host; `layer1` returns `nil` and runs nothing. -/
theorem layer1_dial_failure_witness :
    layer1 (exampleCollaborators (.error (.mk
      "ssh: handshake failed: ssh: unable to authenticate, attempted methods [none password], no supported methods remain")))
      exampleArgs = (.ret none, []) :=
  Prod.ext
    ((layer1_dial_failure _ exampleArgs "eu-west-1" "bucket" "keys" _ rfl rfl).2.1.2
      (by decide))
    (layer1_dial_failure _ exampleArgs "eu-west-1" "bucket" "keys" _ rfl rfl).1

end cmd

namespace Shell

theorem run_append (st : State) (a b : List Char) :
    run st (a ++ b) = (run st a).bind (fun st1 => run st1 b) := by
  induction a generalizing st with
  | nil => rfl
  | cons c a ih =>
    simp only [List.cons_append, run]
    cases step st c with
    | none => rfl
    | some st1 => exact ih st1

theorem run_cons (st : State) (c : Char) (cs : List Char) :
    run st (c :: cs) = (step st c).bind (fun st1 => run st1 cs) := rfl

/-- Inside single quotes every character but the single quote is taken as it is. -/
theorem run_single (l : List Char) (w : List Char) (words : List String)
    (cmds : List (List String)) (h : squote ∉ l) :
    run ⟨.single, some w, words, cmds⟩ l = some ⟨.single, some (w ++ l), words, cmds⟩ := by
  induction l generalizing w with
  | nil => simp [run]
  | cons c l ih =>
    have hc : c ≠ squote := fun h0 => h (h0 ▸ List.mem_cons_self _ _)
    have hl : squote ∉ l := fun h0 => h (List.mem_cons_of_mem _ h0)
    simp only [run, step, hc, if_false, addChar, Option.getD_some, Option.some_bind]
    show run _ l = _
    rw [ih _ hl]
    simp

/-- Outside quotes a run of plain characters extends the word being read. -/
theorem run_plain (l : List Char) (cur : Option (List Char)) (words : List String)
    (cmds : List (List String)) (h : ∀ c ∈ l, isPlain c) (hne : l ≠ []) :
    run ⟨.normal, cur, words, cmds⟩ l = some ⟨.normal, some (cur.getD [] ++ l), words, cmds⟩ := by
  induction l generalizing cur with
  | nil => exact absurd rfl hne
  | cons c l ih =>
    obtain ⟨h1, h2, h3, h4, h5, h6, h7⟩ := h c (List.mem_cons_self _ _)
    have hstep : step ⟨.normal, cur, words, cmds⟩ c =
        some ⟨.normal, some (cur.getD [] ++ [c]), words, cmds⟩ := by
      simp [step, h1, h2, h3, h4, h5, h6, h7, addChar]
    simp only [run, hstep, Option.some_bind]
    show run _ l = _
    by_cases hl : l = []
    · subst hl
      simp [run]
    · rw [ih _ (fun c hc => h c (List.mem_cons_of_mem _ hc)) hl]
      simp

/-- A state in which the input may end is a state in which a pipe may follow, and
the pipe leaves the pipeline read so far. -/
theorem step_pipe_of_finish (st : State) (p : List (List String)) (h : finish st = some p) :
    step st '|' = some ⟨.normal, none, [], p.reverse⟩ := by
  unfold finish at h
  by_cases hm : st.mode = .normal
  · rw [if_pos hm] at h
    have hstep : step st '|' = endCommand st := by
      unfold step
      rw [hm]
      rfl
    rw [hstep]
    unfold endCommand at h ⊢
    by_cases hw : (endWord st).words = []
    · rw [if_pos hw] at h
      simp at h
    · rw [if_neg hw] at h ⊢
      simp only [Option.map_some', Option.some.injEq] at h
      rw [← h]
      simp
  · rw [if_neg hm] at h
    simp at h

/-- The text between the pipe and the command, read from the start of a command. -/
theorem run_sudo_words (cmds : List (List String)) :
    run ⟨.normal, none, [], cmds⟩ " sudo -S bash -c '".data =
      some ⟨.single, some [], ["-c", "bash", "-S", "sudo"], cmds⟩ := rfl

/-- The closing single quote. -/
theorem run_quote_end (w : List Char) (words : List String) (cmds : List (List String)) :
    run ⟨.single, some w, words, cmds⟩ [squote] = some ⟨.normal, some w, words, cmds⟩ := rfl

/-- The end of the input after the closing quote. -/
theorem finish_sudo_words (cmd : String) (p : List (List String)) :
    finish ⟨.normal, some cmd.data, ["-c", "bash", "-S", "sudo"], p.reverse⟩ =
      some (p ++ [["sudo", "-S", "bash", "-c", cmd]]) := by
  simp [finish, endCommand, endWord]

end Shell

namespace ssh
open Go Model Shell

/-- The wrapper read by the shell, from any state in which a pipe may follow the
text `echo <password> `: the words of the right-hand command are `sudo`, `-S`,
`bash`, `-c` and the command itself, when the command has no single quote. -/
theorem run_wrapper_tail (st : State) (p : List (List String)) (cmd : String)
    (hfin : finish st = some p) (hcmd : squote ∉ cmd.data) :
    (run st ("| sudo -S bash -c '" ++ cmd ++ "'").data).bind finish =
      some (p ++ [["sudo", "-S", "bash", "-c", cmd]]) := by
  have hdata : ("| sudo -S bash -c '" ++ cmd ++ "'").data =
      '|' :: (" sudo -S bash -c '".data ++ (cmd.data ++ [squote])) := by
    simp only [String.data_append, List.append_assoc]
    rfl
  rw [hdata, run_cons, step_pipe_of_finish st p hfin, Option.some_bind, run_append,
    run_sudo_words, Option.some_bind, run_append, run_single _ _ _ _ hcmd, Option.some_bind,
    List.nil_append, run_quote_end, Option.some_bind]
  exact finish_sudo_words cmd p

end ssh

namespace Shell

/-- The word `echo` and the blank after it, read from the start. -/
theorem run_echo : run init "echo ".data = some ⟨.normal, none, ["echo"], []⟩ := rfl

/-- The blank that ends the password. -/
theorem run_blank_after (w : List Char) :
    run ⟨.normal, some w, ["echo"], []⟩ [' '] = some ⟨.normal, none, [String.mk w, "echo"], []⟩ :=
  rfl

end Shell

namespace ssh

open Go Model Shell

/-- The text `echo <password> ` read by the shell when the password is made of
plain characters: one command, `echo` with the password as its only argument (or
with none when the password is empty). -/
theorem shellSplit_echo_plain (password : String) (hp : ∀ c ∈ password.data, isPlain c) :
    shellSplit ("echo " ++ password ++ " ") =
      some [("echo" :: if password = "" then [] else [password])] := by
  unfold shellSplit
  have hdata : ("echo " ++ password ++ " ").data = "echo ".data ++ (password.data ++ [' ']) := by
    simp only [String.data_append, List.append_assoc]
  rw [hdata, run_append, run_echo, Option.some_bind]
  by_cases hpw : password = ""
  · subst hpw
    rw [if_pos rfl]
    rfl
  · rw [if_neg hpw]
    have hne : password.data ≠ [] := fun h0 => hpw (String.ext h0)
    rw [run_append, run_plain _ _ _ _ hp hne, Option.some_bind, Option.getD_none,
      List.nil_append, run_blank_after, Option.some_bind]
    simp [finish, endCommand, endWord]

/-- The wrapper keeps a command without a single quote (such as the `sed`
substitutions, with their double quotes): with a password after which the shell
can end the `echo` command, the shell reads the wrapped command as the pipeline
of the `echo` followed by the command `sudo -S bash -c <cmd>`, the inner command
arriving unchanged as one argument.  This covers every password of plain
characters, for which the left-hand command is `echo <password>`. -/
theorem basicSudoStdin_shellSplit (cmd password : String) (hcmd : squote ∉ cmd.data) :
    (∀ p, shellSplit ("echo " ++ password ++ " ") = some p →
        shellSplit (basicSudoStdin cmd password) =
          some (p ++ [["sudo", "-S", "bash", "-c", cmd]]))
    ∧ ((∀ c ∈ password.data, isPlain c) →
        shellSplit (basicSudoStdin cmd password) =
          some [("echo" :: if password = "" then [] else [password]),
            ["sudo", "-S", "bash", "-c", cmd]]) := by
  have hmain : ∀ p, shellSplit ("echo " ++ password ++ " ") = some p →
      shellSplit (basicSudoStdin cmd password) =
        some (p ++ [["sudo", "-S", "bash", "-c", cmd]]) := by
    intro p hp
    unfold shellSplit at hp ⊢
    have hdata : (basicSudoStdin cmd password).data =
        ("echo " ++ password ++ " ").data ++ ("| sudo -S bash -c '" ++ cmd ++ "'").data := by
      unfold basicSudoStdin
      simp only [String.data_append, List.append_assoc]
      rfl
    rw [hdata, run_append]
    cases hr : run init ("echo " ++ password ++ " ").data with
    | none => rw [hr] at hp; simp at hp
    | some st =>
      rw [hr, Option.some_bind] at hp
      rw [Option.some_bind]
      exact run_wrapper_tail st p cmd hp hcmd
  refine ⟨hmain, ?_⟩
  intro hplain
  have := hmain _ (shellSplit_echo_plain password hplain)
  simpa using this

/-- An example: the `sed` substitution that disables PAM, with its double quotes,
reaches `bash -c` unchanged. -/
theorem basicSudoStdin_shellSplit_sed :
    shellSplit
        (basicSudoStdin "sed -i \"s/^UsePAM yes/UsePAM no/\" /etc/ssh/sshd_config" "raspberry") =
      some [["echo", "raspberry"],
        ["sudo", "-S", "bash", "-c",
          "sed -i \"s/^UsePAM yes/UsePAM no/\" /etc/ssh/sshd_config"]] :=
  (basicSudoStdin_shellSplit "sed -i \"s/^UsePAM yes/UsePAM no/\" /etc/ssh/sshd_config"
    "raspberry" (by decide)).1 [["echo", "raspberry"]] (by decide)

end ssh

namespace cmd

open Go Model Shell

/-- C9 fails for a command with single quotes: `basicSudoStdin` puts the command
between single quotes and escapes nothing.  The `useradd` that `createDeployerUser`
builds and sends through the wrapper is `useradd -m -c 'deployer' -s /bin/bash -g
'deployers' deployers`; the shell reads the last argument of `bash -c` without the
four single quotes, so the argument is not the inner command.  For the command
`echo 'a b'` the inner command does not even arrive as one argument: `bash -c`
gets `echo a`, and `b` follows as a further argument. -/
theorem basicSudoStdin_loses_single_quotes :
    useraddCmd exampleSettings =
      "useradd -m -c 'deployer' -s /bin/bash -g 'deployers' deployers"
    ∧ ssh.basicSudoStdin (useraddCmd exampleSettings) "raspberry" =
      "echo raspberry | sudo -S bash -c 'useradd -m -c 'deployer' -s /bin/bash -g 'deployers' deployers'"
    ∧ ssh.basicSudoStdin (useraddCmd exampleSettings) "raspberry" ∈
      ((createDeployerUser exampleSettings).run hostFresh []).2
    ∧ shellSplit (ssh.basicSudoStdin (useraddCmd exampleSettings) "raspberry") =
      some [["echo", "raspberry"],
        ["sudo", "-S", "bash", "-c",
          "useradd -m -c deployer -s /bin/bash -g deployers deployers"]]
    ∧ (¬ ∃ p, shellSplit (ssh.basicSudoStdin (useraddCmd exampleSettings) "raspberry") = some p
        ∧ p.getLast? = some ["sudo", "-S", "bash", "-c", useraddCmd exampleSettings])
    ∧ ssh.basicSudoStdin "echo 'a b'" "raspberry" =
      "echo raspberry | sudo -S bash -c 'echo 'a b''"
    ∧ shellSplit (ssh.basicSudoStdin "echo 'a b'" "raspberry") =
      some [["echo", "raspberry"], ["sudo", "-S", "bash", "-c", "echo a", "b"]] := by
  have h2 : shellSplit (ssh.basicSudoStdin (useraddCmd exampleSettings) "raspberry") =
      some [["echo", "raspberry"],
        ["sudo", "-S", "bash", "-c",
          "useradd -m -c deployer -s /bin/bash -g deployers deployers"]] := by decide
  refine ⟨by decide, by decide, by decide, h2, ?_, by decide, by decide⟩
  rintro ⟨p, hp, hl⟩
  rw [h2] at hp
  have hpe := Option.some.inj hp
  subst hpe
  revert hl
  decide

end cmd

namespace ssh

open Go Model

/-- C11, as the code has it: `runCommand` returns `(stdout, stderr, err)` for every
outcome of `sess.Run`, with `err` the error of the run (`nil` for exit 0, non-nil
for a non-zero exit or a channel error during the run), and the command is then on
the host.  When the session cannot be opened, or its stdout or stderr pipe cannot
be obtained, it panics with that error and the command is not run.  So it returns
exactly when the session and both pipes were opened. -/
theorem runCommand_returns_or_panics (cmd : String) (w : World) (tr : Trace) :
    (∀ stdout stderr err, w tr cmd = .ran stdout stderr err →
        (runCommand cmd).run w tr = (.ret (stdout, stderr, err), tr ++ [cmd]))
    ∧ (∀ e, (w tr cmd = .sessionErr e ∨ w tr cmd = .stdoutErr e ∨ w tr cmd = .stderrErr e) →
        (runCommand cmd).run w tr = (.panic e, tr))
    ∧ ((∃ r, ((runCommand cmd).run w tr).1 = .ret r) ↔
        ∃ stdout stderr err, w tr cmd = .ran stdout stderr err) := by
  refine ⟨?_, ?_, ?_⟩
  · intro stdout stderr err h
    exact run_runCommand cmd w tr stdout stderr err h
  · rintro e (h | h | h) <;> rw [run_runCommand_cases, h]
  · rw [run_runCommand_cases]
    cases h : w tr cmd with
    | sessionErr e => simp
    | stdoutErr e => simp
    | stderrErr e => simp
    | ran stdout stderr err => simp

/-- C11, an example: a `chmod` that exits with status 1 is returned as an error
value, with the output, and nothing panics. -/
theorem runCommand_returns_or_panics_witness :
    (runCommand "echo pw | sudo -S bash -c 'chmod 600 /home/u/.ssh/authorized_keys'").run
        hostChmodFileFails [] =
      (.ret ("", "", some (.mk "Process exited with status 1")),
        ["echo pw | sudo -S bash -c 'chmod 600 /home/u/.ssh/authorized_keys'"]) :=
  (runCommand_returns_or_panics
    "echo pw | sudo -S bash -c 'chmod 600 /home/u/.ssh/authorized_keys'"
    hostChmodFileFails []).1 "" "" (some (.mk "Process exited with status 1")) (by decide)

/-- C11 fails when no session can be opened: `runCommand` panics instead of
returning an error, and the panic crosses every caller: the key reconciler and the
group step of the bootstrap layer end in the same panic, with nothing run. -/
theorem runCommand_panics_without_session :
    (runCommand "whoami").run hostNoSession [] =
      (.panic (.mk "ssh: rejected: administratively prohibited (open failed)"), [])
    ∧ (¬ ∃ r, ((runCommand "whoami").run hostNoSession []).1 = .ret r)
    ∧ (UploadsshKeys (fun _ => .ok ["b", "a"]) ⟨"u", "pw", "g", "uri"⟩).run hostNoSession [] =
      (.panic (.mk "ssh: rejected: administratively prohibited (open failed)"), [])
    ∧ (cmd.createDeployerGroup cmd.exampleSettings).run hostNoSession [] =
      (.panic (.mk "ssh: rejected: administratively prohibited (open failed)"), []) := by
  refine ⟨by decide, ?_, by decide, by decide⟩
  rintro ⟨r, hr⟩
  revert hr
  have h : ((runCommand "whoami").run hostNoSession []).1 =
      .panic (.mk "ssh: rejected: administratively prohibited (open failed)") := by decide
  rw [h]
  intro hr
  cases hr

end ssh

namespace cmd

open Go Model

/-- The function `setupDeployer` is the group step followed, when it returns `nil`,
by the code from `createDeployerUser` on. -/
theorem setupDeployer_eq (ext : Collaborators) (settings : Layer1Settings) :
    setupDeployer ext settings =
      (do
        let err ← createDeployerGroup settings
        match err with
        | some err => pure (some err)
        | none => setupDeployerUserOn ext settings) := rfl

/-- The copy of the sudoers file is none of the commands up to the sudo check. -/
theorem cpCmd_not_mem (settings : Layer1Settings) :
    sudoStdinLogin "cp /etc/sudoers sudoers" settings ∉
      [groupProbeCmd settings, groupaddCmd settings, sudoStdinLogin "whoami" settings] := by
  simp only [List.mem_cons, List.mem_singleton, List.not_mem_nil, or_false, not_or]
  refine ⟨?_, ?_, ?_⟩
  · refine ne_of_head_ne _ _ 'e' 'g' (sudoStdinLogin_head _ _) ?_ (by decide)
    unfold groupProbeCmd
    simp only [String.data_append]
    rfl
  · intro h
    unfold groupaddCmd at h
    exact ne_of_head_ne "cp /etc/sudoers sudoers" _ 'c' 'g' rfl (groupadd_head settings)
      (by decide) (sudoStdinLogin_inj _ _ _ h)
  · intro h
    exact absurd (sudoStdinLogin_inj _ _ _ h) (by decide)

/-- The `cat` of the sudoers file is none of the commands up to the sudo check. -/
theorem catCmd_not_mem (settings : Layer1Settings) :
    sudoStdinLogin "cat /etc/sudoers" settings ∉
      [groupProbeCmd settings, groupaddCmd settings, sudoStdinLogin "whoami" settings] := by
  simp only [List.mem_cons, List.mem_singleton, List.not_mem_nil, or_false, not_or]
  refine ⟨?_, ?_, ?_⟩
  · refine ne_of_head_ne _ _ 'e' 'g' (sudoStdinLogin_head _ _) ?_ (by decide)
    unfold groupProbeCmd
    simp only [String.data_append]
    rfl
  · intro h
    unfold groupaddCmd at h
    exact ne_of_head_ne "cat /etc/sudoers" _ 'c' 'g' rfl (groupadd_head settings)
      (by decide) (sudoStdinLogin_inj _ _ _ h)
  · intro h
    exact absurd (sudoStdinLogin_inj _ _ _ h) (by decide)

/-- The trace of the group step up to the sudo check holds only the probe of the
group, the `groupadd` and the sudo check. -/
theorem mem_upto_whoami (settings : Layer1Settings) (w : World) (tr0 : Trace)
    (hstart : (Succeeds w [] (groupProbeCmd settings) ∧ tr0 = [groupProbeCmd settings]) ∨
      (∃ err, FailsWith w [] (groupProbeCmd settings) err ∧
        Succeeds w [groupProbeCmd settings] (groupaddCmd settings) ∧
        tr0 = [groupProbeCmd settings, groupaddCmd settings]))
    (c : String) (hc : c ∈ tr0 ++ [sudoStdinLogin "whoami" settings]) :
    c ∈ [groupProbeCmd settings, groupaddCmd settings, sudoStdinLogin "whoami" settings] := by
  rcases hstart with ⟨_, rfl⟩ | ⟨err, _, _, rfl⟩
  · simp only [List.cons_append, List.nil_append, List.mem_cons, List.mem_singleton,
      List.not_mem_nil, or_false] at hc ⊢
    rcases hc with h | h
    · exact Or.inl h
    · exact Or.inr (Or.inr h)
  · simpa using hc

/-- The function `createDeployerUser` only adds commands to the trace, and its probe
`id <user>` is the first of them. -/
theorem createDeployerUser_first (settings : Layer1Settings) (w : World) (tr : Trace)
    (o e : String) (s : Option GoError)
    (h : w tr ("id " ++ settings.deployerUser) = .ran o e s) :
    tr ++ ["id " ++ settings.deployerUser] <+: ((createDeployerUser settings).run w tr).2 := by
  unfold createDeployerUser
  rw [run_cmdCommand_bind _ _ _ _ _ _ _ h]
  clear h
  generalize tr ++ ["id " ++ settings.deployerUser] = tr1
  cases s with
  | none => simp
  | some err0 =>
  simp only []
  revert w tr1
  refine prefix_bind _ _ (fun w tr => ssh.prefix_runCommand _ w tr) ?_
  rintro ⟨o, e, s⟩
  cases s with
  | some err => exact prefix_pure _
  | none =>
  refine prefix_bind _ _ (fun w tr => ssh.prefix_runCommand _ w tr) ?_
  rintro ⟨o, e, s⟩
  cases s with
  | some err => exact prefix_pure _
  | none =>
  refine prefix_bind _ _ (fun w tr => ssh.prefix_runCommand _ w tr) ?_
  rintro ⟨o, e, s⟩
  cases s with
  | some err => exact prefix_pure _
  | none =>
  refine prefix_bind _ _ (fun w tr => ssh.prefix_runCommand _ w tr) ?_
  rintro ⟨o, e, s⟩
  cases s with
  | some err => exact prefix_pure _
  | none =>
  refine prefix_bind _ _ (fun w tr => ssh.prefix_runCommand _ w tr) ?_
  rintro ⟨o, e, s⟩
  cases s with
  | some err => exact prefix_pure _
  | none => exact prefix_pure _

/-- C12: the sudo check of `createDeployerGroup` is soft.  Once the group check is
over (the group exists, or it has just been created), a failing elevated `whoami`
ends the step with `nil` right after it: the copy of the sudoers file, the `cat`
and the append are not run.  `setupDeployer` does not stop: it goes on with its
code from `createDeployerUser` on, and the probe `id <user>` of that step is the
next command on the host. -/
theorem createDeployerGroup_soft_sudo_check (ext : Collaborators) (settings : Layer1Settings)
    (w : World) (tr0 : Trace) (err : GoError)
    (hstart : (Succeeds w [] (groupProbeCmd settings) ∧ tr0 = [groupProbeCmd settings]) ∨
      (∃ err, FailsWith w [] (groupProbeCmd settings) err ∧
        Succeeds w [groupProbeCmd settings] (groupaddCmd settings) ∧
        tr0 = [groupProbeCmd settings, groupaddCmd settings]))
    (hwhoami : FailsWith w tr0 (sudoStdinLogin "whoami" settings) err) :
    (createDeployerGroup settings).run w [] =
      (.ret none, tr0 ++ [sudoStdinLogin "whoami" settings])
    ∧ sudoStdinLogin "cp /etc/sudoers sudoers" settings ∉
        ((createDeployerGroup settings).run w []).2
    ∧ sudoStdinLogin "cat /etc/sudoers" settings ∉ ((createDeployerGroup settings).run w []).2
    ∧ sudoStdinLogin (sudoersCmd settings) settings ∉
        ((createDeployerGroup settings).run w []).2
    ∧ (setupDeployer ext settings).run w [] =
        (setupDeployerUserOn ext settings).run w (tr0 ++ [sudoStdinLogin "whoami" settings])
    ∧ (∀ o e s, w (tr0 ++ [sudoStdinLogin "whoami" settings])
          ("id " ++ settings.deployerUser) = .ran o e s →
        tr0 ++ [sudoStdinLogin "whoami" settings] ++ ["id " ++ settings.deployerUser] <+:
          ((createDeployerUser settings).run w
            (tr0 ++ [sudoStdinLogin "whoami" settings])).2) := by
  have hrun : (createDeployerGroup settings).run w [] =
      (.ret none, tr0 ++ [sudoStdinLogin "whoami" settings]) := by
    obtain ⟨o1, e1, hw⟩ := hwhoami
    have hfirst : (createDeployerGroup settings).run w [] =
        (createDeployerGroupSudoers settings).run w tr0 := by
      unfold createDeployerGroup
      rcases hstart with ⟨⟨o, e, h⟩, rfl⟩ | ⟨err, ⟨o, e, h⟩, ⟨o2, e2, h2⟩, rfl⟩
      · rw [run_cmdCommand_bind _ _ _ _ _ _ _ h]
        simp
      · rw [run_cmdCommand_bind _ _ _ _ _ _ _ h]
        simp only [List.nil_append]
        rw [run_cmdCommand_bind _ _ _ _ _ _ _ h2]
        simp
    rw [hfirst]
    unfold createDeployerGroupSudoers
    rw [run_cmdCommand_bind _ _ _ _ _ _ _ hw]
    simp
  have hmem := mem_upto_whoami settings w tr0 hstart
  refine ⟨hrun, ?_, ?_, ?_, ?_, ?_⟩
  · rw [hrun]
    exact fun h => cpCmd_not_mem settings (hmem _ h)
  · rw [hrun]
    exact fun h => catCmd_not_mem settings (hmem _ h)
  · rw [hrun]
    intro h
    have h1 := hmem _ h
    refine sudoersCmd_not_mem settings ?_
    simp only [List.mem_cons, List.mem_singleton, List.not_mem_nil, or_false] at h1 ⊢
    rcases h1 with h1 | h1 | h1
    · exact Or.inl h1
    · exact Or.inr (Or.inl h1)
    · exact Or.inr (Or.inr (Or.inl h1))
  · rw [setupDeployer_eq, run_bind_ret _ _ _ _ _ _ hrun]
  · intro o e s h
    exact createDeployerUser_first settings w _ o e s h

/-- C12, an example: on a host where the group exists and the login user may not
use `sudo`, the group step ends without error after the `whoami`, and
`setupDeployer` goes on with `id deployers` and completes the layer. -/
theorem createDeployerGroup_soft_sudo_check_witness :
    (createDeployerGroup exampleSettings).run hostSudoRefused [] =
      (.ret none,
        ["grep -q deployers /etc/group", "echo raspberry | sudo -S bash -c 'whoami'"])
    ∧ (setupDeployerUserOn (exampleCollaborators (.ok hostSudoRefused)) exampleSettings).run
        hostSudoRefused
        ["grep -q deployers /etc/group", "echo raspberry | sudo -S bash -c 'whoami'"] =
      (setupDeployer (exampleCollaborators (.ok hostSudoRefused)) exampleSettings).run
        hostSudoRefused []
    ∧ ((setupDeployer (exampleCollaborators (.ok hostSudoRefused)) exampleSettings).run
        hostSudoRefused []).2.take 3 =
      ["grep -q deployers /etc/group", "echo raspberry | sudo -S bash -c 'whoami'",
        "id deployers"] :=
  ⟨(createDeployerGroup_soft_sudo_check (exampleCollaborators (.ok hostSudoRefused))
      exampleSettings hostSudoRefused ["grep -q deployers /etc/group"]
      (.mk "Process exited with status 1") (Or.inl ⟨⟨"", "", rfl⟩, rfl⟩)
      ⟨"", "pi is not in the sudoers file.", rfl⟩).1,
    ((createDeployerGroup_soft_sudo_check (exampleCollaborators (.ok hostSudoRefused))
      exampleSettings hostSudoRefused ["grep -q deployers /etc/group"]
      (.mk "Process exited with status 1") (Or.inl ⟨⟨"", "", rfl⟩, rfl⟩)
      ⟨"", "pi is not in the sudoers file.", rfl⟩).2.2.2.2.1).symm,
    by decide⟩

end cmd

namespace cmd

open Go Model

/-- The flag binding of `NewLayer1Cmd` stores the value of `--deployer-user` in the
field `deployerPassword` and the value of `--deployer-password` in the field
`deployerUser`; the other flags reach the field of their name. -/
theorem NewLayer1CmdArgs_deployer_fields (flags : Layer1Flags) :
    (NewLayer1CmdArgs flags).deployerUser = flags.deployerPasswordFlag
    ∧ (NewLayer1CmdArgs flags).deployerPassword = flags.deployerUserFlag
    ∧ (NewLayer1CmdArgs flags).loginUser = flags.loginUserFlag
    ∧ (NewLayer1CmdArgs flags).loginPassword = flags.loginPasswordFlag
    ∧ (NewLayer1CmdArgs flags).host = flags.hostFlag :=
  ⟨rfl, rfl, rfl, rfl, rfl⟩

/-- With the connection open, `layer1` runs `setupDeployer` with the settings built
from its arguments, and these name the user, and the group, by the value of
`--deployer-password` and set the password to the value of `--deployer-user`. -/
theorem layer1_settings_of_flags (ext : Collaborators) (flags : Layer1Flags)
    (s3Region s3Bucket s3File : String) (conn : World)
    (hparse : ext.splitAwsPath flags.s3PathFlag = .ok (s3Region, s3Bucket, s3File))
    (hdial : ext.dial (flags.hostFlag ++ ":" ++ toString flags.portFlag) flags.loginUserFlag
      flags.loginPasswordFlag = .ok conn)
    (hip : flags.staticIPFlag = []) :
    layer1 ext (NewLayer1CmdArgs flags) =
      (setupDeployer ext
        (layer1Settings (NewLayer1CmdArgs flags) s3Region s3Bucket s3File)).run conn []
    ∧ (layer1Settings (NewLayer1CmdArgs flags) s3Region s3Bucket s3File).deployerUser =
        flags.deployerPasswordFlag
    ∧ (layer1Settings (NewLayer1CmdArgs flags) s3Region s3Bucket s3File).deployerGroup =
        flags.deployerPasswordFlag
    ∧ (layer1Settings (NewLayer1CmdArgs flags) s3Region s3Bucket s3File).deployerPassword =
        flags.deployerUserFlag := by
  refine ⟨?_, rfl, rfl, rfl⟩
  unfold layer1
  have h1 : (NewLayer1CmdArgs flags).s3Path = flags.s3PathFlag := rfl
  have h2 : (NewLayer1CmdArgs flags).host = flags.hostFlag := rfl
  have h3 : (NewLayer1CmdArgs flags).port = flags.portFlag := rfl
  have h4 : (NewLayer1CmdArgs flags).loginUser = flags.loginUserFlag := rfl
  have h5 : (NewLayer1CmdArgs flags).loginPassword = flags.loginPasswordFlag := rfl
  have h6 : (NewLayer1CmdArgs flags).staticIP = flags.staticIPFlag := rfl
  rw [h1, hparse]
  simp only [h2, h3, h4, h5, hdial, h6, hip]
  rw [run_bind]
  unfold layer1Settings
  simp only [h4, h5]
  rcases (setupDeployer ext _).run conn [] with ⟨r, tr⟩
  cases r with
  | panic e => rfl
  | ret a =>
    cases a with
    | none => rfl
    | some err => rfl

set_option maxRecDepth 100000 in
/-- C13 fails: with `--deployer-user deployer --deployer-password s3cret` on a host
without deployer account, the layer succeeds, but the account that `useradd`
creates is named `s3cret`, `chpasswd` sets its password to `deployer`, and the
command suggested at the end is `ssh s3cret@10.0.0.2`; no `useradd` of an account
named `deployer` is run. -/
theorem layer1_swaps_deployer_user_and_password :
    exampleFlags.deployerUserFlag = "deployer"
    ∧ exampleFlags.deployerPasswordFlag = "s3cret"
    ∧ (NewLayer1CmdRunE (exampleCollaborators (.ok hostFresh)) exampleFlags).1.1 = .ret none
    ∧ "echo raspberry | sudo -S bash -c 'useradd -m -c 'deployer' -s /bin/bash -g 's3cret' s3cret'"
        ∈ (NewLayer1CmdRunE (exampleCollaborators (.ok hostFresh)) exampleFlags).1.2
    ∧ "echo raspberry | sudo -S bash -c 'echo s3cret:deployer | chpasswd'"
        ∈ (NewLayer1CmdRunE (exampleCollaborators (.ok hostFresh)) exampleFlags).1.2
    ∧ "echo raspberry | sudo -S bash -c 'useradd -m -c 'deployer' -s /bin/bash -g 'deployer' deployer'"
        ∉ (NewLayer1CmdRunE (exampleCollaborators (.ok hostFresh)) exampleFlags).1.2
    ∧ "echo raspberry | sudo -S bash -c 'echo deployer:s3cret | chpasswd'"
        ∉ (NewLayer1CmdRunE (exampleCollaborators (.ok hostFresh)) exampleFlags).1.2
    ∧ (NewLayer1CmdRunE (exampleCollaborators (.ok hostFresh)) exampleFlags).2 =
        "Provisioning layer 1...\n\nLayer 1 provisioned successfully\nNote: you must restart the server to apply the hostname change and suppress the security risk warning\n\nContinue with layer 2 or ssh into server:\n  ssh s3cret@10.0.0.2\n" := by
  refine ⟨rfl, rfl, by decide, by decide, by decide, by decide, by decide, by decide⟩

end cmd
